import Mathlib

/-!
Verification development for the ks-wings host agent.

The definitions below are a shallow embedding of the JavaScript sources:
  - routes/Deployment.js   (deployment pipeline, state store, asset fetcher)
  - utils/Docker.js        (runtime client: version probe, pull-progress drain)
  - the unnamed main file  (HTTP stats endpoint, websocket sessions, and an
    older embedded copy of the deployment router)

JavaScript strings are modelled as Lean `String`, JavaScript numbers that the
program manipulates as `Int`/`Nat` (the state documents and progress records
reasoned about here contain only integer numerals), and `JSON.parse` /
`JSON.stringify` as an executable JSON parser and printer over a `Json` value
type.  Fallible operations return `Option`/`Except`, and the effectful
handlers are modelled as pure functions emitting an ordered event trace.
-/

/-- JSON values as produced by JSON.parse.  Numbers are restricted to
integers: every numeral appearing in the state documents and progress
records this development reasons about is an integer. -/
inductive Json where
  | null : Json
  | bool : Bool → Json
  | num : Int → Json
  | str : String → Json
  | arr : List Json → Json
  | obj : List (String × Json) → Json
  deriving Repr, Inhabited

/-- Whitespace characters recognised by the JSON grammar. -/
def isJsWs (c : Char) : Bool :=
  c = ' ' || c = '\t' || c = '\n' || c = '\r'

/-- Drop leading JSON whitespace. -/
def skipWs : List Char → List Char
  | [] => []
  | c :: cs => if isJsWs c then skipWs cs else c :: cs

/-- Numeric value of a hexadecimal digit character. -/
def hexVal (c : Char) : Option Nat :=
  if 48 ≤ c.toNat && c.toNat ≤ 57 then some (c.toNat - 48)
  else if 97 ≤ c.toNat && c.toNat ≤ 102 then some (c.toNat - 87)
  else if 65 ≤ c.toNat && c.toNat ≤ 70 then some (c.toNat - 55)
  else none

/-- Unescape a single-character JSON escape sequence. -/
def unescapeChar : Char → Option Char
  | '"' => some '"'
  | '\\' => some '\\'
  | '/' => some '/'
  | 'b' => some (Char.ofNat 8)
  | 'f' => some (Char.ofNat 12)
  | 'n' => some '\n'
  | 'r' => some (Char.ofNat 13)
  | 't' => some '\t'
  | _ => none

/-- Parse the body of a JSON string (the input starts right after the
opening quote); returns the decoded characters and the input remaining
after the closing quote. -/
def parseStringBody : List Char → Option (List Char × List Char)
  | [] => none
  | '"' :: cs => some ([], cs)
  | '\\' :: 'u' :: a :: b :: x :: d :: cs =>
    (match hexVal a, hexVal b, hexVal x, hexVal d with
     | some h₁, some h₂, some h₃, some h₄ =>
       (match parseStringBody cs with
        | some (s, r) => some (Char.ofNat (4096 * h₁ + 256 * h₂ + 16 * h₃ + h₄) :: s, r)
        | none => none)
     | _, _, _, _ => none)
  | '\\' :: e :: cs =>
    (match unescapeChar e with
     | some u =>
       (match parseStringBody cs with
        | some (s, r) => some (u :: s, r)
        | none => none)
     | none => none)
  | c :: cs =>
    (match parseStringBody cs with
     | some (s, r) => some (c :: s, r)
     | none => none)

/-- Decimal value of a digit character. -/
def digitVal (c : Char) : Nat := c.toNat - 48

/-- Value of a string of decimal digit characters. -/
def digitsVal (l : List Char) : Nat := l.foldl (fun a c => 10 * a + digitVal c) 0

/-- Decimal digit test on the character code. -/
def isDigitCh (c : Char) : Bool := 48 ≤ c.toNat && c.toNat ≤ 57

/-- Parse a maximal nonempty run of leading decimal digits. -/
def parseNatChars (cs : List Char) : Option (Nat × List Char) :=
  let ds := cs.takeWhile isDigitCh
  if ds = [] then none else some (digitsVal ds, cs.dropWhile isDigitCh)

/-- Mode of the JSON parser core: a whole value, the member list of an
object (with the members parsed so far), or the element list of an array. -/
inductive PMode where
  | value : PMode
  | members : List (String × Json) → PMode
  | elems : List Json → PMode

/-- Core of the JSON parser.  The fuel argument bounds the recursion depth;
every recursive call is reached only after consuming at least one input
character, so fuel `input length + 1` never runs out. -/
def parseCore : Nat → PMode → List Char → Option (Json × List Char)
  | 0, _, _ => none
  | f + 1, .value, cs =>
    (match skipWs cs with
     | [] => none
     | c :: rest =>
       if c = '\x7b' then
         (match skipWs rest with
          | '\x7d' :: rest₂ => some (.obj [], rest₂)
          | rest₂ => parseCore f (.members []) rest₂)
       else if c = '[' then
         (match skipWs rest with
          | ']' :: rest₂ => some (.arr [], rest₂)
          | rest₂ => parseCore f (.elems []) rest₂)
       else if c = '"' then
         (match parseStringBody rest with
          | some (s, r) => some (.str (String.mk s), r)
          | none => none)
       else if c = 't' then
         (match rest with
          | 'r' :: 'u' :: 'e' :: rest₂ => some (.bool true, rest₂)
          | _ => none)
       else if c = 'f' then
         (match rest with
          | 'a' :: 'l' :: 's' :: 'e' :: rest₂ => some (.bool false, rest₂)
          | _ => none)
       else if c = 'n' then
         (match rest with
          | 'u' :: 'l' :: 'l' :: rest₂ => some (.null, rest₂)
          | _ => none)
       else if c = '-' then
         (match parseNatChars rest with
          | some (n, r) => some (.num (-(n : Int)), r)
          | none => none)
       else
         (match parseNatChars (c :: rest) with
          | some (n, r) => some (.num (n : Int), r)
          | none => none))
  | f + 1, .members acc, cs =>
    (match cs with
     | '"' :: rest =>
       (match parseStringBody rest with
        | some (key, rest₁) =>
          (match skipWs rest₁ with
           | ':' :: rest₂ =>
             (match parseCore f .value rest₂ with
              | some (v, rest₃) =>
                (match skipWs rest₃ with
                 | ',' :: rest₄ => parseCore f (.members (acc ++ [(String.mk key, v)])) (skipWs rest₄)
                 | '\x7d' :: rest₄ => some (.obj (acc ++ [(String.mk key, v)]), rest₄)
                 | _ => none)
              | none => none)
           | _ => none)
        | none => none)
     | _ => none)
  | f + 1, .elems acc, cs =>
    (match parseCore f .value cs with
     | some (v, rest) =>
       (match skipWs rest with
        | ',' :: rest₂ => parseCore f (.elems (acc ++ [v])) rest₂
        | ']' :: rest₂ => some (.arr (acc ++ [v]), rest₂)
        | _ => none)
     | none => none)

/-- Parse one JSON value, returning the remaining input as well. -/
def parseValue (f : Nat) (cs : List Char) : Option (Json × List Char) :=
  parseCore f .value cs

/-- Model of JSON.parse: parse one value, allow trailing whitespace, and
fail on any other trailing input. -/
def jsonParse (s : String) : Option Json :=
  match parseValue (s.length + 1) s.data with
  | some (j, rest) => if skipWs rest = [] then some j else none
  | none => none

/-- Member access on a parsed JSON object, as JavaScript property access on
the result of JSON.parse (duplicate keys: last one wins); `none` stands for
`undefined` (non-objects have no members). -/
def Json.getField : Json → String → Option Json
  | .obj ms, k => ms.reverse.lookup k
  | _, _ => none

/-- JavaScript truthiness of a JSON value. -/
def jsTruthy : Json → Bool
  | .null => false
  | .bool b => b
  | .num n => n ≠ 0
  | .str s => s ≠ ""
  | .arr _ => true
  | .obj _ => true

/-- Truthiness of a possibly-undefined value. -/
def jsTruthyOpt : Option Json → Bool
  | none => false
  | some j => jsTruthy j

example : jsonParse "\x7b\"error\":\"\"\x7d" = some (.obj [("error", .str "")]) := rfl
example : jsonParse "  null " = some .null := rfl
example : jsonParse "\x7b\"a\": [1, -2, true]\x7d" =
    some (.obj [("a", .arr [.num 1, .num (-2), .bool true])]) := rfl
example : jsonParse "\x7b\"a\": 1" = none := rfl
example : jsonParse "nul" = none := rfl
example : jsonParse "\x7b\"s\": \"a\\nb\"\x7d" = some (.obj [("s", .str "a\nb")]) := rfl

/-- Whitespace removed by the JavaScript String.trim used when filtering
progress-stream lines (ASCII subset). -/
def isTrimWs (c : Char) : Bool :=
  isJsWs c || c = Char.ofNat 11 || c = Char.ofNat 12

/-- Split a character list on newline characters, as the JavaScript
String.split with separator newline: a separator at the end yields a final
empty piece, and the empty input yields one empty piece. -/
def splitNlChars : List Char → List (List Char)
  | [] => [[]]
  | c :: cs =>
    if c = '\n' then [] :: splitNlChars cs
    else
      match splitNlChars cs with
      | l :: ls => (c :: l) :: ls
      | [] => [[c]]

/-- Lines of one data chunk as produced by the drain in
utils/Docker.js modem.followProgress: split the chunk on newlines and keep
the lines that are nonempty after trimming. -/
def chunkLines (chunk : String) : List String :=
  ((splitNlChars chunk.data).map String.mk).filter (fun l => l.data.any (fun c => !isTrimWs c))

/-- Termination of the pull-progress byte stream: a normal end event or a
stream error event. -/
inductive StreamEnd where
  | ended : StreamEnd
  | errored : String → StreamEnd

/-- Error value handed to the on_finished callback of the progress drain:
either the Error built from the final record's error field, or the error
the stream itself emitted. -/
inductive FollowErr where
  | fromField : Json → FollowErr
  | fromStream : String → FollowErr

/-- Outcome of the progress drain: the collected records, the records the
optional on_progress hook was called with (in call order), and the error
argument of the final on_finished call. -/
structure FollowResult where
  records : List Json
  progressCalls : List Json
  err : Option FollowErr

/-- Contents of allOutput at the end of the stream: every parseable
nonblank line of every chunk, in arrival order (allOutput of
modem.followProgress). -/
def allRecords (chunks : List String) : List Json :=
  (chunks.map (fun ch => (chunkLines ch).filterMap jsonParse)).flatten

/-- Model of modem.followProgress from utils/Docker.js: every data chunk is
split on newlines, lines blank after trimming are dropped, each remaining
line is JSON-parsed (parse failures are silently skipped), parsed records
are pushed to allOutput and passed to on_progress; on the end event
on_finished is called with a non-null error iff the last collected record
is truthy and has a truthy error field; on a stream error event on_finished
is called with that error.  The stream is modelled as the list of chunks
delivered before the terminating event. -/
def followProgress (chunks : List String) (term : StreamEnd) : FollowResult :=
  match term with
  | .errored msg => ⟨allRecords chunks, allRecords chunks, some (.fromStream msg)⟩
  | .ended =>
    match (allRecords chunks).getLast? with
    | some last =>
      if jsTruthy last && jsTruthyOpt (last.getField "error") then
        ⟨allRecords chunks, allRecords chunks,
          some (.fromField ((last.getField "error").getD .null))⟩
      else ⟨allRecords chunks, allRecords chunks, none⟩
    | none => ⟨allRecords chunks, allRecords chunks, none⟩

example : (followProgress ["\x7b\"status\":\"ok\"\x7d\nnot json\n\x7b\"id\":1\x7d"] .ended).records =
    [.obj [("status", .str "ok")], .obj [("id", .num 1)]] := rfl
example : (followProgress ["\x7b\"error\":\"boom\"\x7d"] .ended).err =
    some (.fromField (.str "boom")) := rfl
example : (followProgress ["\x7b\"error\":\"\"\x7d"] .ended).err = none := rfl


lemma filterMap_flatten_eq {α β : Type} (L : List (List α)) (f : α → Option β) :
    L.flatten.filterMap f = (L.map (List.filterMap f)).flatten := by
  induction L with
  | nil => rfl
  | cons x xs ih => simp [List.filterMap_append, ih]

lemma followProgress_records (chunks : List String) (term : StreamEnd) :
    (followProgress chunks term).records = allRecords chunks := by
  unfold followProgress
  split
  · rfl
  · split
    · split <;> rfl
    · rfl

lemma followProgress_progress (chunks : List String) (term : StreamEnd) :
    (followProgress chunks term).progressCalls = allRecords chunks := by
  unfold followProgress
  split
  · rfl
  · split
    · split <;> rfl
    · rfl

lemma allRecords_eq (chunks : List String) :
    allRecords chunks = ((chunks.map chunkLines).flatten).filterMap jsonParse := by
  rw [filterMap_flatten_eq, List.map_map]
  rfl

lemma followProgress_err_ended (chunks : List String) :
    ((followProgress chunks .ended).err ≠ none ↔
      ∃ last, (allRecords chunks).getLast? = some last ∧
        jsTruthy last = true ∧ jsTruthyOpt (last.getField "error") = true) := by
  unfold followProgress
  rcases hl : (allRecords chunks).getLast? with _ | last
  · simp [hl]
  · simp only [hl]
    by_cases hc : (jsTruthy last && jsTruthyOpt (last.getField "error")) = true
    · rcases Bool.and_eq_true .. |>.mp hc with ⟨ht, he⟩
      simp [hc, ht, he]
    · rw [Bool.and_eq_true] at hc
      push_neg at hc
      simp only [Bool.not_eq_true] at hc
      have hcf : (jsTruthy last && jsTruthyOpt (last.getField "error")) = false := by
        rcases Bool.eq_false_or_eq_true (jsTruthy last) with h | h
        · simp [h, hc h]
        · simp [h]
      rw [if_neg (by simp [hcf])]
      constructor
      · intro h
        exact absurd rfl h
      · rintro ⟨l₂, hl₂, ht, he⟩
        cases hl₂
        rw [ht, he] at hcf
        cases hcf

/-- Claim C3, amended: the drain collects, in order, every line (of every
chunk, each chunk split on newlines) that is nonblank after trimming and
parses as JSON, passes exactly those records to the on_progress hook in the
same order, silently skipping malformed lines; on a stream error
on_finished receives that error; at a normal end of stream on_finished
receives a non-null error iff the final collected record is truthy and
carries a truthy error field (a present but falsy error field, such as an
empty string, yields a null error). -/
theorem c3_follow_progress (chunks : List String) (term : StreamEnd) :
    (followProgress chunks term).records =
      ((chunks.map chunkLines).flatten).filterMap jsonParse ∧
    (followProgress chunks term).progressCalls = (followProgress chunks term).records ∧
    (∀ msg, term = .errored msg →
      (followProgress chunks term).err = some (.fromStream msg)) ∧
    (term = .ended →
      ((followProgress chunks term).err ≠ none ↔
        ∃ last, (followProgress chunks term).records.getLast? = some last ∧
          jsTruthy last = true ∧ jsTruthyOpt (last.getField "error") = true)) := by
  refine ⟨?_, ?_, ?_, ?_⟩
  · rw [followProgress_records, allRecords_eq]
  · rw [followProgress_records, followProgress_progress]
  · intro msg hmsg; subst hmsg; rfl
  · intro hterm; subst hterm
    rw [followProgress_records]
    exact followProgress_err_ended chunks

/-- Claim C3, counterexample to the claim as stated: a stream whose final
(and only) record is an object with an empty-string error field.  The final
collected record does contain an error field, and the stream did not emit
an error, yet on_finished is called with a null error — refuting the
claimed iff. -/
theorem c3_counterexample :
    (followProgress ["\x7b\"error\":\"\"\x7d"] .ended).err = none ∧
    ((followProgress ["\x7b\"error\":\"\"\x7d"] .ended).records.getLast?.bind
      (fun l => l.getField "error")).isSome = true :=
  ⟨rfl, rfl⟩

/-- Witness for c3_follow_progress at a concrete stream containing a
malformed line and a final truthy-error record. -/
theorem c3_witness :
    (followProgress ["\x7b\"status\":\"ok\"\x7d\nbad json", "\x7b\"error\":\"x\"\x7d"] .ended).err ≠ none :=
  ((c3_follow_progress ["\x7b\"status\":\"ok\"\x7d\nbad json", "\x7b\"error\":\"x\"\x7d"] .ended).2.2.2 rfl).mpr
    ⟨Json.obj [("error", Json.str "x")], rfl, rfl, rfl⟩

/-- Decimal digit character for a value below ten (ten and above clamp to
the last digit; they never arise). -/
def digitChar : Nat → Char
  | 0 => '0'
  | 1 => '1'
  | 2 => '2'
  | 3 => '3'
  | 4 => '4'
  | 5 => '5'
  | 6 => '6'
  | 7 => '7'
  | 8 => '8'
  | _ => '9'

/-- Lowercase hexadecimal digit character for a value below sixteen. -/
def hexDigit : Nat → Char
  | 0 => '0'
  | 1 => '1'
  | 2 => '2'
  | 3 => '3'
  | 4 => '4'
  | 5 => '5'
  | 6 => '6'
  | 7 => '7'
  | 8 => '8'
  | 9 => '9'
  | 10 => 'a'
  | 11 => 'b'
  | 12 => 'c'
  | 13 => 'd'
  | 14 => 'e'
  | _ => 'f'

/-- Decimal representation of a natural number, most significant digit
first.  The fuel argument makes the recursion structural; `n + 1` units
always suffice. -/
def natToCharsAux : Nat → Nat → List Char
  | 0, _ => []
  | f + 1, n =>
    if n < 10 then [digitChar n]
    else natToCharsAux f (n / 10) ++ [digitChar (n % 10)]

/-- Decimal representation of a natural number. -/
def natToChars (n : Nat) : List Char := natToCharsAux (n + 1) n

/-- Decimal representation of an integer, as JSON.stringify prints the
integer-valued numbers handled here. -/
def intToChars (i : Int) : List Char :=
  if i < 0 then '-' :: natToChars i.natAbs else natToChars i.natAbs

/-- Escape one character as the JSON.stringify string escaper does: quote,
backslash and the five named control escapes get two-character escapes,
any other control character becomes a lowercase u-escape, and everything
else is emitted verbatim. -/
def escapeChar (c : Char) : List Char :=
  if c = '"' then ['\\', '"']
  else if c = '\\' then ['\\', '\\']
  else if c = Char.ofNat 8 then ['\\', 'b']
  else if c = Char.ofNat 9 then ['\\', 't']
  else if c = Char.ofNat 10 then ['\\', 'n']
  else if c = Char.ofNat 12 then ['\\', 'f']
  else if c = Char.ofNat 13 then ['\\', 'r']
  else if c.toNat < 32 then ['\\', 'u', '0', '0', hexDigit (c.toNat / 16), hexDigit (c.toNat % 16)]
  else [c]

/-- Escape the characters of a string body. -/
def escape (l : List Char) : List Char := (l.map escapeChar).flatten

/-- Quoted, escaped JSON string literal for a string value. -/
def quoteChars (s : String) : List Char := '"' :: (escape s.data ++ ['"'])

/-- One record of the durable state document, as written by updateState in
routes/Deployment.js: `states[volumeId] = { state, containerId, diskLimit }`
with containerId and diskLimit possibly null. -/
structure StateRecord where
  state : String
  containerId : Option String
  diskLimit : Option Int

/-- The in-memory state document: the top-level JSON object as an ordered
association list (JavaScript objects preserve insertion order). -/
def StatesDoc : Type := List (String × StateRecord)

/-- JSON value of one state record. -/
def recordJson (r : StateRecord) : Json :=
  .obj [("state", .str r.state),
        ("containerId", match r.containerId with | none => .null | some c => .str c),
        ("diskLimit", match r.diskLimit with | none => .null | some d => .num d)]

/-- JSON value of a state document. -/
def statesJson (d : StatesDoc) : Json :=
  .obj (d.map (fun e => (e.1, recordJson e.2)))

/-- Characters of the containerId field value. -/
def cidChars : Option String → List Char
  | none => "null".data
  | some c => quoteChars c

/-- Characters of the diskLimit field value. -/
def dlChars : Option Int → List Char
  | none => "null".data
  | some d => intToChars d

/-- Characters of one serialized state record, exactly as
`JSON.stringify(states, null, 2)` lays out a depth-one nested object. -/
def recordChars (r : StateRecord) : List Char :=
  '\x7b' :: ("\n    ".data ++ quoteChars "state" ++ ':' :: ' ' :: (quoteChars r.state
    ++ ",\n    ".data ++ quoteChars "containerId" ++ ':' :: ' ' :: (cidChars r.containerId
    ++ ",\n    ".data ++ quoteChars "diskLimit" ++ ':' :: ' ' :: (dlChars r.diskLimit
    ++ "\n  \x7d".data))))

/-- Characters of one serialized top-level entry. -/
def entryChars (e : String × StateRecord) : List Char :=
  quoteChars e.1 ++ ": ".data ++ recordChars e.2

/-- Characters of the remaining top-level entries, each preceded by the
separator `JSON.stringify(·, null, 2)` emits. -/
def entriesTail : StatesDoc → List Char
  | [] => []
  | e :: es => ",\n  ".data ++ entryChars e ++ entriesTail es

/-- Characters of the whole serialized state document, exactly as
`JSON.stringify(states, null, 2)` prints it. -/
def statesChars : StatesDoc → List Char
  | [] => "\x7b\x7d".data
  | e :: es => "\x7b\n  ".data ++ entryChars e ++ entriesTail es ++ "\n\x7d".data

/-- Serialized state document, as written to storage/states.json. -/
def stringifyStates (d : StatesDoc) : String := String.mk (statesChars d)

/-- Decode the JSON value of one state record back into a StateRecord. -/
def decodeRecord : Json → Option StateRecord
  | .obj [("state", .str s), ("containerId", cj), ("diskLimit", dj)] =>
    (match cj, dj with
     | .null, .null => some ⟨s, none, none⟩
     | .null, .num d => some ⟨s, none, some d⟩
     | .str c, .null => some ⟨s, some c, none⟩
     | .str c, .num d => some ⟨s, some c, some d⟩
     | _, _ => none)
  | _ => none

/-- Decode the member list of the top-level JSON object. -/
def decodeEntries : List (String × Json) → Option StatesDoc
  | [] => some []
  | (k, v) :: ms =>
    (match decodeRecord v, decodeEntries ms with
     | some r, some d => some ((k, r) :: d)
     | _, _ => none)

/-- Decode a parsed JSON document into a state document. -/
def decodeStates : Json → Option StatesDoc
  | .obj ms => decodeEntries ms
  | _ => none

/-- Assignment `states[volumeId] = record` on a JavaScript object: replace
the value in place if the key exists (keeping its position), otherwise
append the key at the end. -/
def setRecord : StatesDoc → String → StateRecord → StatesDoc
  | [], k, r => [(k, r)]
  | (k₂, r₂) :: rest, k, r =>
    if k₂ = k then (k, r) :: rest else (k₂, r₂) :: setRecord rest k r

/-- Property read `states[k]` on the document (keys are unique in objects
produced by JSON.parse, so first match suffices). -/
def findRecord : StatesDoc → String → Option StateRecord
  | [], _ => none
  | (k₂, r₂) :: rest, k => if k₂ = k then some r₂ else findRecord rest k

example : stringifyStates [("i1", ⟨"READY", some "abc", some 5⟩)] =
    "\x7b\n  \"i1\": \x7b\n    \"state\": \"READY\",\n    \"containerId\": \"abc\",\n    \"diskLimit\": 5\n  \x7d\n\x7d" := rfl
example : stringifyStates [] = "\x7b\x7d" := rfl
example : intToChars (-12) = ['-', '1', '2'] := rfl

lemma digitVal_digitChar (n : Nat) (h : n < 10) : digitVal (digitChar n) = n := by
  interval_cases n <;> rfl

lemma isDigit_digitChar (n : Nat) : isDigitCh (digitChar n) = true := by
  rcases n with _ | _ | _ | _ | _ | _ | _ | _ | _ | n <;> rfl

lemma digitsVal_append_singleton (xs : List Char) (c : Char) :
    digitsVal (xs ++ [c]) = 10 * digitsVal xs + digitVal c := by
  simp [digitsVal, List.foldl_append]

lemma natToCharsAux_spec (f : Nat) : ∀ n, n < f →
    digitsVal (natToCharsAux f n) = n ∧
    (∀ c ∈ natToCharsAux f n, isDigitCh c = true) ∧
    natToCharsAux f n ≠ [] := by
  induction f with
  | zero => intro n h; omega
  | succ f ih =>
    intro n h
    by_cases h10 : n < 10
    · refine ⟨?_, ?_, ?_⟩
      · simp [natToCharsAux, h10, digitsVal, digitVal_digitChar n h10]
      · simp [natToCharsAux, h10, isDigit_digitChar]
      · simp [natToCharsAux, h10]
    · have hdiv : n / 10 < f := by
        have h₂ : n / 10 < n := Nat.div_lt_self (by omega) (by omega)
        omega
      rcases ih (n / 10) hdiv with ⟨hv, hd, hne⟩
      refine ⟨?_, ?_, ?_⟩
      · simp only [natToCharsAux, if_neg h10, digitsVal_append_singleton, hv,
          digitVal_digitChar (n % 10) (Nat.mod_lt n (by omega))]
        omega
      · simp only [natToCharsAux, if_neg h10]
        intro c hc
        rcases List.mem_append.mp hc with hc | hc
        · exact hd c hc
        · rcases List.mem_singleton.mp hc with rfl
          exact isDigit_digitChar _
      · simp [natToCharsAux, if_neg h10]

lemma digitsVal_natToChars (n : Nat) : digitsVal (natToChars n) = n :=
  (natToCharsAux_spec (n + 1) n (by omega)).1

lemma natToChars_digits (n : Nat) : ∀ c ∈ natToChars n, isDigitCh c = true :=
  (natToCharsAux_spec (n + 1) n (by omega)).2.1

lemma natToChars_ne_nil (n : Nat) : natToChars n ≠ [] :=
  (natToCharsAux_spec (n + 1) n (by omega)).2.2

/-- Lists whose head, if any, is not a decimal digit; the contexts a
serialized number is followed by in a state document. -/
def noLeadingDigit (cs : List Char) : Prop :=
  ∀ c, cs.head? = some c → isDigitCh c = false

lemma takeWhile_append_of_all {p : Char → Bool} (l₁ l₂ : List Char)
    (h : ∀ c ∈ l₁, p c = true) (h₂ : ∀ c, l₂.head? = some c → p c = false) :
    (l₁ ++ l₂).takeWhile p = l₁ := by
  induction l₁ with
  | nil =>
    cases l₂ with
    | nil => rfl
    | cons c cs => simp [List.takeWhile, h₂ c rfl]
  | cons c cs ih =>
    simp only [List.cons_append, List.takeWhile, h c (by simp)]
    rw [show cs.append l₂ = cs ++ l₂ from rfl, ih (fun x hx => h x (by simp [hx]))]

lemma dropWhile_append_of_all {p : Char → Bool} (l₁ l₂ : List Char)
    (h : ∀ c ∈ l₁, p c = true) (h₂ : ∀ c, l₂.head? = some c → p c = false) :
    (l₁ ++ l₂).dropWhile p = l₂ := by
  induction l₁ with
  | nil =>
    cases l₂ with
    | nil => rfl
    | cons c cs => simp [List.dropWhile, h₂ c rfl]
  | cons c cs ih =>
    simp only [List.cons_append, List.dropWhile, h c (by simp)]
    exact ih (fun x hx => h x (by simp [hx]))

lemma parseNatChars_natToChars (n : Nat) (rest : List Char) (h : noLeadingDigit rest) :
    parseNatChars (natToChars n ++ rest) = some (n, rest) := by
  unfold parseNatChars
  rw [takeWhile_append_of_all _ _ (natToChars_digits n) h,
    dropWhile_append_of_all _ _ (natToChars_digits n) h]
  simp [natToChars_ne_nil n, digitsVal_natToChars n]

lemma hexVal_hexDigit (k : Nat) (h : k < 16) : hexVal (hexDigit k) = some k := by
  interval_cases k <;> rfl

lemma string_mk_data (s : String) : String.mk s.data = s := rfl

lemma parseStringBody_raw (c : Char) (cs : List Char) (h1 : c ≠ '"') (h2 : c ≠ '\\') :
    parseStringBody (c :: cs) =
      match parseStringBody cs with
      | some (s, r) => some (c :: s, r)
      | none => none := by
  rw [parseStringBody.eq_def]
  split <;> simp_all

lemma parseStringBody_escapeChar (c : Char) (tail : List Char) :
    parseStringBody (escapeChar c ++ tail) =
      match parseStringBody tail with
      | some (s, r) => some (c :: s, r)
      | none => none := by
  unfold escapeChar
  by_cases h1 : c = '"'
  · subst h1; simp [parseStringBody, unescapeChar]
  · rw [if_neg h1]
    by_cases h2 : c = '\\'
    · subst h2; simp [parseStringBody, unescapeChar]
    · rw [if_neg h2]
      by_cases h3 : c = Char.ofNat 8
      · subst h3; simp [parseStringBody, unescapeChar]
      · rw [if_neg h3]
        by_cases h4 : c = Char.ofNat 9
        · subst h4; simp [parseStringBody, unescapeChar]
        · rw [if_neg h4]
          by_cases h5 : c = Char.ofNat 10
          · subst h5; simp [parseStringBody, unescapeChar]
          · rw [if_neg h5]
            by_cases h6 : c = Char.ofNat 12
            · subst h6; simp [parseStringBody, unescapeChar]
            · rw [if_neg h6]
              by_cases h7 : c = Char.ofNat 13
              · subst h7; simp [parseStringBody, unescapeChar]
              · rw [if_neg h7]
                by_cases h8 : c.toNat < 32
                · rw [if_pos h8]
                  show parseStringBody ('\\' :: 'u' :: '0' :: '0' :: _ :: _ :: tail) = _
                  simp only [parseStringBody,
                    hexVal_hexDigit (c.toNat / 16) (by omega),
                    hexVal_hexDigit (c.toNat % 16) (by omega)]
                  simp only [show hexVal '0' = some 0 from rfl]
                  simp only [show (4096 : Nat) * 0 + 256 * 0 + 16 * (c.toNat / 16) + c.toNat % 16
                      = c.toNat from by omega, Char.ofNat_toNat]
                · rw [if_neg h8]
                  show parseStringBody (c :: tail) = _
                  exact parseStringBody_raw c tail h1 h2

lemma escape_cons (c : Char) (l : List Char) :
    escape (c :: l) = escapeChar c ++ escape l := by
  simp [escape]

lemma parseStringBody_escape (l : List Char) : ∀ rest,
    parseStringBody (escape l ++ '"' :: rest) = some (l, rest) := by
  induction l with
  | nil => intro rest; rfl
  | cons c cs ih =>
    intro rest
    rw [escape_cons, List.append_assoc, parseStringBody_escapeChar, ih rest]

lemma skipWs_cons_false (c : Char) (cs : List Char) (h : isJsWs c = false) :
    skipWs (c :: cs) = c :: cs := by
  simp [skipWs, h]

lemma parseCore_value_str (f : Nat) (s : String) (rest : List Char) :
    parseCore (f + 1) .value (quoteChars s ++ rest) = some (.str s, rest) := by
  have h : quoteChars s ++ rest = '"' :: (escape s.data ++ '"' :: rest) := by
    simp [quoteChars]
  rw [h]
  simp only [parseCore, skipWs_cons_false '"' _ rfl]
  rw [parseStringBody_escape s.data rest]
  simp [string_mk_data]

lemma parseCore_value_null (f : Nat) (rest : List Char) :
    parseCore (f + 1) .value ("null".data ++ rest) = some (.null, rest) := by
  rw [show "null".data ++ rest = 'n' :: 'u' :: 'l' :: 'l' :: rest from rfl]
  simp only [parseCore, skipWs_cons_false 'n' _ rfl]
  rfl

lemma natToCharsAux_head (f : Nat) : ∀ n, n < f →
    ∃ k t, k < 10 ∧ natToCharsAux f n = digitChar k :: t := by
  induction f with
  | zero => intro n h; omega
  | succ f ih =>
    intro n h
    by_cases h10 : n < 10
    · exact ⟨n, [], h10, by simp [natToCharsAux, h10]⟩
    · have hdiv : n / 10 < f := by
        have h₂ : n / 10 < n := Nat.div_lt_self (by omega) (by omega)
        omega
      obtain ⟨k, t, hk, ht⟩ := ih (n / 10) hdiv
      exact ⟨k, t ++ [digitChar (n % 10)], hk, by simp [natToCharsAux, h10, ht]⟩

lemma natToChars_head (n : Nat) :
    ∃ k t, k < 10 ∧ natToChars n = digitChar k :: t :=
  natToCharsAux_head (n + 1) n (by omega)

lemma parseCore_value_digitHead (f : Nat) (c : Char) (cs : List Char)
    (hd : isDigitCh c = true) :
    parseCore (f + 1) .value (c :: cs) =
      match parseNatChars (c :: cs) with
      | some (n, r) => some (.num (n : Int), r)
      | none => none := by
  have hb : 48 ≤ c.toNat ∧ c.toNat ≤ 57 := by
    have := hd
    simp [isDigitCh] at this
    exact this
  have hne : ∀ x : Char, ¬(48 ≤ x.toNat ∧ x.toNat ≤ 57) → c ≠ x := by
    intro x hx h
    exact hx (h ▸ hb)
  have hw : isJsWs c = false := by
    simp only [isJsWs, decide_eq_false (hne ' ' (by decide)),
      decide_eq_false (hne '\t' (by decide)), decide_eq_false (hne '\n' (by decide)),
      decide_eq_false (hne (Char.ofNat 13) (by decide)), Bool.or_self]
  simp only [parseCore, skipWs_cons_false c cs hw]
  rw [if_neg (hne '\x7b' (by decide)), if_neg (hne '[' (by decide)),
    if_neg (hne '"' (by decide)), if_neg (hne 't' (by decide)),
    if_neg (hne 'f' (by decide)), if_neg (hne 'n' (by decide)),
    if_neg (hne '-' (by decide))]

lemma parseCore_value_int (f : Nat) (i : Int) (rest : List Char) (h : noLeadingDigit rest) :
    parseCore (f + 1) .value (intToChars i ++ rest) = some (.num i, rest) := by
  unfold intToChars
  by_cases hneg : i < 0
  · rw [if_pos hneg, List.cons_append]
    simp only [parseCore, skipWs_cons_false '-' _ rfl]
    rw [if_neg (by decide : ¬(('-' : Char) = '\x7b')), if_neg (by decide : ¬(('-' : Char) = '[')),
      if_neg (by decide : ¬(('-' : Char) = '"')), if_neg (by decide : ¬(('-' : Char) = 't')),
      if_neg (by decide : ¬(('-' : Char) = 'f')), if_neg (by decide : ¬(('-' : Char) = 'n')),
      if_pos (trivial : True)]
    rw [parseNatChars_natToChars i.natAbs rest h]
    show some (Json.num (-((i.natAbs : Int))), rest) = some (Json.num i, rest)
    have hi : -((i.natAbs : Int)) = i := by omega
    rw [hi]
  · rw [if_neg hneg]
    obtain ⟨k, t, hk, ht⟩ := natToChars_head i.natAbs
    rw [ht, List.cons_append,
      parseCore_value_digitHead f (digitChar k) (t ++ rest) (isDigit_digitChar k),
      show digitChar k :: (t ++ rest) = natToChars i.natAbs ++ rest from by
        rw [ht, List.cons_append],
      parseNatChars_natToChars i.natAbs rest h]
    show some (Json.num ((i.natAbs : Int)), rest) = some (Json.num i, rest)
    have hi : ((i.natAbs : Int)) = i := by omega
    rw [hi]

lemma skipWs_idem (cs : List Char) : skipWs (skipWs cs) = skipWs cs := by
  induction cs with
  | nil => rfl
  | cons c cs ih =>
    by_cases h : isJsWs c = true
    · simp [skipWs, h, ih]
    · have hf : isJsWs c = false := by simpa using h
      rw [skipWs_cons_false c cs hf, skipWs_cons_false c cs hf]

lemma parseCore_value_skip (f : Nat) (cs : List Char) :
    parseCore (f + 1) .value cs = parseCore (f + 1) .value (skipWs cs) := by
  simp only [parseCore, skipWs_idem]

lemma skipWs_ws_cons (c : Char) (cs : List Char) (h : isJsWs c = true) :
    skipWs (c :: cs) = skipWs cs := by
  simp [skipWs, h]

/-- One-step unfolding of the members mode of the parser. -/
lemma parseCore_members_eq (f : Nat) (acc : List (String × Json)) (cs : List Char) :
    parseCore (f + 1) (.members acc) cs =
      (match cs with
       | '"' :: rest =>
         (match parseStringBody rest with
          | some (key, rest₁) =>
            (match skipWs rest₁ with
             | ':' :: rest₂ =>
               (match parseCore f .value rest₂ with
                | some (v, rest₃) =>
                  (match skipWs rest₃ with
                   | ',' :: rest₄ => parseCore f (.members (acc ++ [(String.mk key, v)])) (skipWs rest₄)
                   | '\x7d' :: rest₄ => some (.obj (acc ++ [(String.mk key, v)]), rest₄)
                   | _ => none)
                | none => none)
             | _ => none)
          | none => none)
       | _ => none) := rfl

lemma parseCore_members_step (f : Nat) (acc : List (String × Json)) (key : String)
    (vChars after : List Char) (v : Json)
    (hv : parseCore (f + 1) .value (vChars ++ after) = some (v, after)) :
    parseCore (f + 2) (.members acc) (quoteChars key ++ ':' :: ' ' :: (vChars ++ after)) =
      match skipWs after with
      | ',' :: rest₄ => parseCore (f + 1) (.members (acc ++ [(key, v)])) (skipWs rest₄)
      | '\x7d' :: rest₄ => some (.obj (acc ++ [(key, v)]), rest₄)
      | _ => none := by
  have h : quoteChars key ++ ':' :: ' ' :: (vChars ++ after) =
      '"' :: (escape key.data ++ '"' :: (':' :: ' ' :: (vChars ++ after))) := by
    simp [quoteChars]
  have hval : parseCore (f + 1) .value (' ' :: (vChars ++ after)) = some (v, after) := by
    rw [parseCore_value_skip, skipWs_ws_cons ' ' _ rfl, ← parseCore_value_skip]
    exact hv
  rw [h, show f + 2 = (f + 1) + 1 from rfl, parseCore_members_eq (f + 1) acc _]
  simp only [parseStringBody_escape key.data (':' :: ' ' :: (vChars ++ after)),
    skipWs_cons_false ':' _ rfl, hval, string_mk_data]

lemma quoteChars_append_cons (k : String) (X : List Char) :
    quoteChars k ++ X = '"' :: (escape k.data ++ '"' :: X) := by
  simp [quoteChars]

/-- One-step unfolding of the value mode of the parser. -/
lemma parseCore_value_eq (f : Nat) (cs : List Char) :
    parseCore (f + 1) .value cs =
      (match skipWs cs with
       | [] => none
       | c :: rest =>
         if c = '\x7b' then
           (match skipWs rest with
            | '\x7d' :: rest₂ => some (.obj [], rest₂)
            | rest₂ => parseCore f (.members []) rest₂)
         else if c = '[' then
           (match skipWs rest with
            | ']' :: rest₂ => some (.arr [], rest₂)
            | rest₂ => parseCore f (.elems []) rest₂)
         else if c = '"' then
           (match parseStringBody rest with
            | some (s, r) => some (.str (String.mk s), r)
            | none => none)
         else if c = 't' then
           (match rest with
            | 'r' :: 'u' :: 'e' :: rest₂ => some (.bool true, rest₂)
            | _ => none)
         else if c = 'f' then
           (match rest with
            | 'a' :: 'l' :: 's' :: 'e' :: rest₂ => some (.bool false, rest₂)
            | _ => none)
         else if c = 'n' then
           (match rest with
            | 'u' :: 'l' :: 'l' :: rest₂ => some (.null, rest₂)
            | _ => none)
         else if c = '-' then
           (match parseNatChars rest with
            | some (n, r) => some (.num (-(n : Int)), r)
            | none => none)
         else
           (match parseNatChars (c :: rest) with
            | some (n, r) => some (.num (n : Int), r)
            | none => none)) := rfl

lemma cidChars_value (f : Nat) (o : Option String) (after : List Char) :
    parseCore (f + 1) .value (cidChars o ++ after) =
      some ((match o with | none => Json.null | some c => Json.str c), after) := by
  cases o with
  | none => exact parseCore_value_null f after
  | some c => exact parseCore_value_str f c after

lemma dlChars_value (f : Nat) (o : Option Int) (after : List Char) (h : noLeadingDigit after) :
    parseCore (f + 1) .value (dlChars o ++ after) =
      some ((match o with | none => Json.null | some d => Json.num d), after) := by
  cases o with
  | none => exact parseCore_value_null f after
  | some d => exact parseCore_value_int f d after h

lemma skipWs_quote (k : String) (X : List Char) :
    skipWs (quoteChars k ++ X) = quoteChars k ++ X := by
  rw [quoteChars_append_cons]
  exact skipWs_cons_false _ _ rfl

lemma parseCore_value_record (f : Nat) (r : StateRecord) (rest : List Char) :
    parseCore (f + 5) .value (recordChars r ++ rest) = some (recordJson r, rest) := by
  set A3 : List Char := '\n' :: ' ' :: ' ' :: '\x7d' :: rest with hA3
  set A2 : List Char := ',' :: '\n' :: ' ' :: ' ' :: ' ' :: ' ' ::
    (quoteChars "diskLimit" ++ ':' :: ' ' :: (dlChars r.diskLimit ++ A3)) with hA2
  set A1 : List Char := ',' :: '\n' :: ' ' :: ' ' :: ' ' :: ' ' ::
    (quoteChars "containerId" ++ ':' :: ' ' :: (cidChars r.containerId ++ A2)) with hA1
  have hND : noLeadingDigit A3 := by
    intro c hc
    rw [hA3] at hc
    injection hc with h
    subst h
    rfl
  have h1 : parseCore (f + 4) (.members [])
      (quoteChars "state" ++ ':' :: ' ' :: (quoteChars r.state ++ A1)) =
      (match skipWs A1 with
       | ',' :: rest₄ => parseCore (f + 3) (.members [("state", Json.str r.state)]) (skipWs rest₄)
       | '\x7d' :: rest₄ => some (.obj [("state", Json.str r.state)], rest₄)
       | _ => none) :=
    parseCore_members_step (f + 2) [] "state" (quoteChars r.state) A1 (Json.str r.state)
      (parseCore_value_str (f + 2) r.state A1)
  have h2 : parseCore (f + 3) (.members [("state", Json.str r.state)])
      (quoteChars "containerId" ++ ':' :: ' ' :: (cidChars r.containerId ++ A2)) =
      (match skipWs A2 with
       | ',' :: rest₄ => parseCore (f + 2)
           (.members [("state", Json.str r.state),
             ("containerId", (match r.containerId with | none => Json.null | some c => Json.str c))])
           (skipWs rest₄)
       | '\x7d' :: rest₄ => some (.obj [("state", Json.str r.state),
           ("containerId", (match r.containerId with | none => Json.null | some c => Json.str c))], rest₄)
       | _ => none) :=
    parseCore_members_step (f + 1) [("state", Json.str r.state)] "containerId"
      (cidChars r.containerId) A2 _ (cidChars_value (f + 1) r.containerId A2)
  have h3 : parseCore (f + 2)
      (.members [("state", Json.str r.state),
        ("containerId", (match r.containerId with | none => Json.null | some c => Json.str c))])
      (quoteChars "diskLimit" ++ ':' :: ' ' :: (dlChars r.diskLimit ++ A3)) =
      (match skipWs A3 with
       | ',' :: rest₄ => parseCore (f + 1)
           (.members [("state", Json.str r.state),
             ("containerId", (match r.containerId with | none => Json.null | some c => Json.str c)),
             ("diskLimit", (match r.diskLimit with | none => Json.null | some d => Json.num d))])
           (skipWs rest₄)
       | '\x7d' :: rest₄ => some (.obj [("state", Json.str r.state),
           ("containerId", (match r.containerId with | none => Json.null | some c => Json.str c)),
           ("diskLimit", (match r.diskLimit with | none => Json.null | some d => Json.num d))], rest₄)
       | _ => none) :=
    parseCore_members_step f
      [("state", Json.str r.state),
        ("containerId", (match r.containerId with | none => Json.null | some c => Json.str c))]
      "diskLimit" (dlChars r.diskLimit) A3 _ (dlChars_value f r.diskLimit A3 hND)
  have hshape : recordChars r ++ rest =
      '\x7b' :: ('\n' :: ' ' :: ' ' :: ' ' :: ' ' ::
        (quoteChars "state" ++ ':' :: ' ' :: (quoteChars r.state ++ A1))) := by
    rw [hA1, hA2, hA3]
    simp [recordChars, List.append_assoc,
      show ("\n    ".data : List Char) = ['\n', ' ', ' ', ' ', ' '] from rfl,
      show (",\n    ".data : List Char) = [',', '\n', ' ', ' ', ' ', ' '] from rfl,
      show ("\n  \x7d".data : List Char) = ['\n', ' ', ' ', '\x7d'] from rfl]
  rw [hshape, show f + 5 = (f + 4) + 1 from rfl, parseCore_value_eq (f + 4)]
  rw [skipWs_cons_false '\x7b' _ rfl]
  show (match skipWs ('\n' :: ' ' :: ' ' :: ' ' :: ' ' ::
        (quoteChars "state" ++ ':' :: ' ' :: (quoteChars r.state ++ A1))) with
      | '\x7d' :: rest₂ => some (Json.obj [], rest₂)
      | rest₂ => parseCore (f + 4) (.members []) rest₂) = some (recordJson r, rest)
  rw [skipWs_ws_cons '\n' _ rfl, skipWs_ws_cons ' ' _ rfl, skipWs_ws_cons ' ' _ rfl,
    skipWs_ws_cons ' ' _ rfl, skipWs_ws_cons ' ' _ rfl, skipWs_quote "state"]
  show parseCore (f + 4) (.members [])
      (quoteChars "state" ++ ':' :: ' ' :: (quoteChars r.state ++ A1)) = some (recordJson r, rest)
  rw [h1, hA1, skipWs_cons_false ',' _ rfl]
  show parseCore (f + 3) (.members [("state", Json.str r.state)])
      (skipWs ('\n' :: ' ' :: ' ' :: ' ' :: ' ' ::
        (quoteChars "containerId" ++ ':' :: ' ' :: (cidChars r.containerId ++ A2)))) =
      some (recordJson r, rest)
  rw [skipWs_ws_cons '\n' _ rfl, skipWs_ws_cons ' ' _ rfl, skipWs_ws_cons ' ' _ rfl,
    skipWs_ws_cons ' ' _ rfl, skipWs_ws_cons ' ' _ rfl, skipWs_quote "containerId"]
  rw [h2, hA2, skipWs_cons_false ',' _ rfl]
  show parseCore (f + 2)
      (.members [("state", Json.str r.state),
        ("containerId", (match r.containerId with | none => Json.null | some c => Json.str c))])
      (skipWs ('\n' :: ' ' :: ' ' :: ' ' :: ' ' ::
        (quoteChars "diskLimit" ++ ':' :: ' ' :: (dlChars r.diskLimit ++ A3)))) =
      some (recordJson r, rest)
  rw [skipWs_ws_cons '\n' _ rfl, skipWs_ws_cons ' ' _ rfl, skipWs_ws_cons ' ' _ rfl,
    skipWs_ws_cons ' ' _ rfl, skipWs_ws_cons ' ' _ rfl, skipWs_quote "diskLimit"]
  rw [h3, hA3, skipWs_ws_cons '\n' _ rfl, skipWs_ws_cons ' ' _ rfl, skipWs_ws_cons ' ' _ rfl,
    skipWs_cons_false '\x7d' _ rfl]
  rfl

lemma parseCore_members_states (es : StatesDoc) : ∀ (f : Nat) (k : String) (r : StateRecord)
    (acc : List (String × Json)) (rest : List Char),
    parseCore (f + es.length + 7) (.members acc)
      (quoteChars k ++ ':' :: ' ' :: (recordChars r ++ (entriesTail es ++ '\n' :: '\x7d' :: rest))) =
      some (.obj (acc ++ (k, recordJson r) :: es.map (fun e => (e.1, recordJson e.2))), rest) := by
  induction es with
  | nil =>
    intro f k r acc rest
    rw [show entriesTail [] ++ '\n' :: '\x7d' :: rest = '\n' :: '\x7d' :: rest from rfl]
    have hstep : parseCore (f + ([] : StatesDoc).length + 7) (.members acc)
        (quoteChars k ++ ':' :: ' ' :: (recordChars r ++ ('\n' :: '\x7d' :: rest))) =
        (match skipWs ('\n' :: '\x7d' :: rest) with
         | ',' :: rest₄ => parseCore (f + 6) (.members (acc ++ [(k, recordJson r)])) (skipWs rest₄)
         | '\x7d' :: rest₄ => some (.obj (acc ++ [(k, recordJson r)]), rest₄)
         | _ => none) :=
      parseCore_members_step (f + 5) acc k (recordChars r) ('\n' :: '\x7d' :: rest) (recordJson r)
        (parseCore_value_record (f + 1) r ('\n' :: '\x7d' :: rest))
    rw [hstep, skipWs_ws_cons '\n' _ rfl, skipWs_cons_false '\x7d' _ rfl]
    rfl
  | cons e es₂ ih =>
    intro f k r acc rest
    rcases e with ⟨k₂, r₂⟩
    have hafter : entriesTail ((k₂, r₂) :: es₂) ++ '\n' :: '\x7d' :: rest =
        ',' :: '\n' :: ' ' :: ' ' ::
          (entryChars (k₂, r₂) ++ (entriesTail es₂ ++ '\n' :: '\x7d' :: rest)) := by
      simp [entriesTail, List.append_assoc,
        show (",\n  ".data : List Char) = [',', '\n', ' ', ' '] from rfl]
    rw [hafter]
    have hstep : parseCore (f + ((k₂, r₂) :: es₂).length + 7) (.members acc)
        (quoteChars k ++ ':' :: ' ' :: (recordChars r ++
          (',' :: '\n' :: ' ' :: ' ' ::
            (entryChars (k₂, r₂) ++ (entriesTail es₂ ++ '\n' :: '\x7d' :: rest))))) =
        (match skipWs (',' :: '\n' :: ' ' :: ' ' ::
            (entryChars (k₂, r₂) ++ (entriesTail es₂ ++ '\n' :: '\x7d' :: rest))) with
         | ',' :: rest₄ => parseCore (f + es₂.length + 7) (.members (acc ++ [(k, recordJson r)])) (skipWs rest₄)
         | '\x7d' :: rest₄ => some (.obj (acc ++ [(k, recordJson r)]), rest₄)
         | _ => none) :=
      parseCore_members_step (f + es₂.length + 6) acc k (recordChars r)
        (',' :: '\n' :: ' ' :: ' ' ::
          (entryChars (k₂, r₂) ++ (entriesTail es₂ ++ '\n' :: '\x7d' :: rest))) (recordJson r)
        (parseCore_value_record (f + es₂.length + 2) r _)
    rw [hstep, skipWs_cons_false ',' _ rfl]
    show parseCore (f + es₂.length + 7) (.members (acc ++ [(k, recordJson r)]))
        (skipWs ('\n' :: ' ' :: ' ' ::
          (entryChars (k₂, r₂) ++ (entriesTail es₂ ++ '\n' :: '\x7d' :: rest)))) = _
    have hentry : entryChars (k₂, r₂) ++ (entriesTail es₂ ++ '\n' :: '\x7d' :: rest) =
        quoteChars k₂ ++ ':' :: ' ' :: (recordChars r₂ ++ (entriesTail es₂ ++ '\n' :: '\x7d' :: rest)) := by
      simp [entryChars, List.append_assoc, show (": ".data : List Char) = [':', ' '] from rfl]
    rw [skipWs_ws_cons '\n' _ rfl, skipWs_ws_cons ' ' _ rfl, skipWs_ws_cons ' ' _ rfl,
      hentry, skipWs_quote k₂, ih f k₂ r₂ (acc ++ [(k, recordJson r)]) rest]
    simp [List.append_assoc]

lemma parseCore_value_states (f : Nat) (d : StatesDoc) (rest : List Char) :
    parseCore (f + d.length + 8) .value (statesChars d ++ rest) = some (statesJson d, rest) := by
  cases d with
  | nil =>
    rw [show statesChars [] ++ rest = '\x7b' :: '\x7d' :: rest from rfl,
      show f + ([] : StatesDoc).length + 8 = (f + 7) + 1 from rfl,
      parseCore_value_eq (f + 7), skipWs_cons_false '\x7b' _ rfl]
    show (match skipWs ('\x7d' :: rest) with
        | '\x7d' :: rest₂ => some (Json.obj [], rest₂)
        | rest₂ => parseCore (f + 7) (.members []) rest₂) = some (statesJson [], rest)
    rw [skipWs_cons_false '\x7d' _ rfl]
    rfl
  | cons e es =>
    rcases e with ⟨k, r⟩
    have hshape : statesChars ((k, r) :: es) ++ rest =
        '\x7b' :: ('\n' :: ' ' :: ' ' ::
          (quoteChars k ++ ':' :: ' ' :: (recordChars r ++ (entriesTail es ++ '\n' :: '\x7d' :: rest)))) := by
      simp [statesChars, entryChars, List.append_assoc,
        show ("\x7b\n  ".data : List Char) = ['\x7b', '\n', ' ', ' '] from rfl,
        show (": ".data : List Char) = [':', ' '] from rfl,
        show ("\n\x7d".data : List Char) = ['\n', '\x7d'] from rfl]
    rw [hshape, show f + ((k, r) :: es).length + 8 = (f + es.length + 8) + 1 from rfl,
      parseCore_value_eq (f + es.length + 8), skipWs_cons_false '\x7b' _ rfl]
    show (match skipWs ('\n' :: ' ' :: ' ' ::
          (quoteChars k ++ ':' :: ' ' :: (recordChars r ++ (entriesTail es ++ '\n' :: '\x7d' :: rest)))) with
        | '\x7d' :: rest₂ => some (Json.obj [], rest₂)
        | rest₂ => parseCore (f + es.length + 8) (.members []) rest₂) =
      some (statesJson ((k, r) :: es), rest)
    rw [skipWs_ws_cons '\n' _ rfl, skipWs_ws_cons ' ' _ rfl, skipWs_ws_cons ' ' _ rfl,
      skipWs_quote k]
    show parseCore (f + es.length + 8) (.members [])
        (quoteChars k ++ ':' :: ' ' :: (recordChars r ++ (entriesTail es ++ '\n' :: '\x7d' :: rest))) =
      some (statesJson ((k, r) :: es), rest)
    rw [show f + es.length + 8 = (f + 1) + es.length + 7 from by omega,
      parseCore_members_states es (f + 1) k r [] rest]
    simp [statesJson]

lemma entryChars_length_ge (e : String × StateRecord) : 2 ≤ (entryChars e).length := by
  simp [entryChars, quoteChars]
  omega

lemma entriesTail_length_ge (es : StatesDoc) : es.length ≤ (entriesTail es).length := by
  induction es with
  | nil => simp [entriesTail]
  | cons e es₂ ih =>
    have h := entryChars_length_ge e
    simp only [entriesTail, List.length_append, List.length_cons]
    simp only [List.length_append] at *
    omega

lemma statesChars_length_ge (e : String × StateRecord) (es : StatesDoc) :
    ((e :: es) : StatesDoc).length + 7 ≤ (statesChars (e :: es)).length := by
  have h₁ := entryChars_length_ge e
  have h₂ := entriesTail_length_ge es
  simp only [statesChars, List.length_append, List.length_cons]
  have h₃ : ("\x7b\n  ".data : List Char).length = 4 := rfl
  have h₄ : ("\n\x7d".data : List Char).length = 2 := rfl
  omega

lemma jsonParse_stringifyStates (d : StatesDoc) :
    jsonParse (stringifyStates d) = some (statesJson d) := by
  cases d with
  | nil => rfl
  | cons e es =>
    obtain ⟨f₀, hf⟩ : ∃ f₀,
        (stringifyStates (e :: es)).length + 1 = f₀ + ((e :: es) : StatesDoc).length + 8 :=
      ⟨(statesChars (e :: es)).length + 1 - (((e :: es) : StatesDoc).length + 8), by
        have hb := statesChars_length_ge e es
        have hl : (stringifyStates (e :: es)).length = (statesChars (e :: es)).length := rfl
        omega⟩
    unfold jsonParse
    rw [hf, show (stringifyStates (e :: es)).data = statesChars (e :: es) ++ [] from by
        simp [stringifyStates],
      show parseValue (f₀ + ((e :: es) : StatesDoc).length + 8) (statesChars (e :: es) ++ []) =
        parseCore (f₀ + ((e :: es) : StatesDoc).length + 8) .value (statesChars (e :: es) ++ [])
        from rfl,
      parseCore_value_states f₀ (e :: es) []]
    rfl

lemma decodeRecord_recordJson (r : StateRecord) : decodeRecord (recordJson r) = some r := by
  rcases r with ⟨s, cid, dl⟩
  cases cid <;> cases dl <;> rfl

lemma decodeEntries_map (d : StatesDoc) :
    decodeEntries (d.map (fun e => (e.1, recordJson e.2))) = some d := by
  induction d with
  | nil => rfl
  | cons e es ih =>
    rcases e with ⟨k, r⟩
    simp [decodeEntries, decodeRecord_recordJson, ih]

lemma decodeStates_statesJson (d : StatesDoc) : decodeStates (statesJson d) = some d := by
  unfold decodeStates statesJson
  exact decodeEntries_map d

/-- Parse the on-disk state document: JSON.parse followed by reading the
layout the program itself writes (top-level object of
state/containerId/diskLimit records). -/
def parseStates (s : String) : Option StatesDoc := (jsonParse s).bind decodeStates

/-- Model of readStates from routes/Deployment.js: a missing file is first
created holding the empty object and then read; otherwise the file content
is parsed.  `none` models the thrown exception on unparseable content (and
content outside the layout the program writes). -/
def readStatesDoc (file : Option String) : Option StatesDoc :=
  match file with
  | none => some []
  | some content => parseStates content

/-- Model of updateState from routes/Deployment.js: read the whole
document, replace the record for volumeId wholesale with exactly
`{ state, containerId, diskLimit }`, and write the re-serialized document
back.  The result is the new file content (`none` when the read threw). -/
def updateState (file : Option String) (volumeId state : String)
    (containerId : Option String) (diskLimit : Option Int) : Option String :=
  (readStatesDoc file).map
    (fun states => stringifyStates (setRecord states volumeId ⟨state, containerId, diskLimit⟩))

lemma findRecord_setRecord_self (d : StatesDoc) (k : String) (r : StateRecord) :
    findRecord (setRecord d k r) k = some r := by
  induction d with
  | nil => simp [setRecord, findRecord]
  | cons e rest ih =>
    rcases e with ⟨k₂, r₂⟩
    by_cases h : k₂ = k
    · simp [setRecord, findRecord, h]
    · simp [setRecord, findRecord, h, ih]

lemma findRecord_setRecord_ne (d : StatesDoc) (k j : String) (r : StateRecord) (h : j ≠ k) :
    findRecord (setRecord d k r) j = findRecord d j := by
  induction d with
  | nil => simp [setRecord, findRecord, Ne.symm h]
  | cons e rest ih =>
    rcases e with ⟨k₂, r₂⟩
    by_cases h₂ : k₂ = k
    · subst h₂
      simp [setRecord, findRecord, Ne.symm h]
    · simp [setRecord, findRecord, h₂, ih]

/-- Claim C6: updateState replaces the record for the instance id wholesale
with exactly the provided fields (not merged with the previous record);
after the update the on-disk document is valid JSON that parses back to
exactly the updated document, and the record of every other instance id is
unchanged — in particular its serialized bytes are identical to the
pre-call ones.  Scope: the prior content is a parseable document in the
layout the program writes (`parseStates content = some doc`), with
JavaScript-object key uniqueness. -/
theorem c6_update_state (content : String) (doc : StatesDoc) (wid st : String)
    (cid : Option String) (dl : Option Int)
    (h : parseStates content = some doc) (_hnd : (doc.map Prod.fst).Nodup) :
    updateState (some content) wid st cid dl =
      some (stringifyStates (setRecord doc wid ⟨st, cid, dl⟩)) ∧
    parseStates (stringifyStates (setRecord doc wid ⟨st, cid, dl⟩)) =
      some (setRecord doc wid ⟨st, cid, dl⟩) ∧
    findRecord (setRecord doc wid ⟨st, cid, dl⟩) wid = some ⟨st, cid, dl⟩ ∧
    (∀ j, j ≠ wid → findRecord (setRecord doc wid ⟨st, cid, dl⟩) j = findRecord doc j) ∧
    (∀ j, j ≠ wid →
      (findRecord (setRecord doc wid ⟨st, cid, dl⟩) j).map (fun r => String.mk (recordChars r)) =
        (findRecord doc j).map (fun r => String.mk (recordChars r))) := by
  refine ⟨?_, ?_, ?_, ?_, ?_⟩
  · simp [updateState, readStatesDoc, h]
  · simp [parseStates, jsonParse_stringifyStates, decodeStates_statesJson]
  · exact findRecord_setRecord_self doc wid ⟨st, cid, dl⟩
  · intro j hj
    exact findRecord_setRecord_ne doc wid j ⟨st, cid, dl⟩ hj
  · intro j hj
    rw [findRecord_setRecord_ne doc wid j ⟨st, cid, dl⟩ hj]

/-- Witness for c6_update_state: updating a fresh instance id appends its
record and leaves the existing record byte-identical. -/
theorem c6_witness :
    updateState (some (stringifyStates [("a", ⟨"READY", some "c1", some 3⟩)]))
        "b" "INSTALLING" none (some 0) =
      some (stringifyStates [("a", ⟨"READY", some "c1", some 3⟩),
        ("b", ⟨"INSTALLING", none, some 0⟩)]) ∧
    findRecord (setRecord [("a", ⟨"READY", some "c1", some 3⟩)] "b" ⟨"INSTALLING", none, some 0⟩)
        "a" = some ⟨"READY", some "c1", some 3⟩ := by
  have h := c6_update_state (stringifyStates [("a", ⟨"READY", some "c1", some 3⟩)])
    [("a", ⟨"READY", some "c1", some 3⟩)] "b" "INSTALLING" none (some 0) rfl (by simp)
  exact ⟨by rw [h.1]; rfl, by rw [h.2.2.2.1 "a" (by decide)]; rfl⟩

/-- Whitespace skipper for the JavaScript parseInt (String.trim-style
whitespace). -/
def skipTrimWs : List Char → List Char
  | [] => []
  | c :: cs => if isTrimWs c then skipTrimWs cs else c :: cs

/-- Leading decimal digits of a character list, if any. -/
def leadDigits (cs : List Char) : Option Nat := (parseNatChars cs).map Prod.fst

/-- Model of the JavaScript parseInt(s, 10): skip leading whitespace, read
an optional sign and then a maximal nonempty run of decimal digits,
ignoring any trailing characters; `none` models NaN. -/
def parseIntJs (s : String) : Option Int :=
  match skipTrimWs s.data with
  | '-' :: rest => (leadDigits rest).map (fun n => -(n : Int))
  | '+' :: rest => (leadDigits rest).map (fun n => (n : Int))
  | cs => (leadDigits cs).map (fun n => (n : Int))

/-- One entry of a PortBindings array value. -/
structure PortBinding where
  HostPort : String
  deriving Repr, DecidableEq

/-- Validity of one HostPort value per the check in createContainer
(routes/Deployment.js): parseInt must yield a number in 1..=65535. -/
def portOk (hp : String) : Bool :=
  match parseIntJs hp with
  | none => false
  | some p => !(p < 1 || p > 65535)

/-- The validation loop of createContainer: some binding has an invalid
HostPort. -/
def hasInvalidPort (pbs : List (String × List PortBinding)) : Bool :=
  pbs.any (fun kb => kb.2.any (fun b => !(portOk b.HostPort)))

/-- The request fields of POST /instances/create that drive the control
flow modelled here (environment-variable assembly has no observable
effect on the modelled events). -/
structure CreateRequest where
  Image : String
  Id : String
  PortBindings : List (String × List PortBinding)
  Disk : Option Int
  hasInstallScripts : Bool

/-- Outcomes of the external operations a deployment performs, one slot
per runtime/filesystem interaction (the volume mkdir and the state writes
are modelled as always succeeding). -/
structure DockerEnv where
  pullResult : Except String Unit
  createResult : Except String String
  scriptsResult : Except String Unit
  startResult : Except String Unit

/-- Ordered observable events of one create request. -/
inductive DeployEvent where
  | mkdirVolume : String → DeployEvent
  | updateStateEv : String → String → Option String → Option Int → DeployEvent
  | pullImage : String → DeployEvent
  | dockerCreate : String → DeployEvent
  | respond : Nat → Option String → DeployEvent
  | runInstallScripts : DeployEvent
  | startContainer : String → DeployEvent
  deriving Repr, DecidableEq

/-- Start-phase events of the fixed handler (routes/Deployment.js): on a
start failure the catch commits FAILED with the known container id. -/
def startPhase (id cid : String) (disk : Option Int) (env : DockerEnv) : List DeployEvent :=
  match env.startResult with
  | .error _ => [.updateStateEv id "FAILED" (some cid) disk]
  | .ok _ => [.startContainer cid, .updateStateEv id "READY" (some cid) disk]

/-- Model of createContainer from routes/Deployment.js: validate ports
(400 before any side effect), create the volume, commit INSTALLING with a
null container id, pull the image (failure: commit FAILED, respond 500),
create the container, respond 202 early carrying the container id, then
run install scripts and start in the background (failure after the 202:
commit FAILED with the known container id, no response). -/
def createContainer (req : CreateRequest) (env : DockerEnv) : List DeployEvent :=
  if hasInvalidPort req.PortBindings then [.respond 400 none]
  else
    let disk : Option Int := some (req.Disk.getD 0)
    [.mkdirVolume req.Id, .updateStateEv req.Id "INSTALLING" none disk, .pullImage req.Image] ++
    match env.pullResult with
    | .error _ => [.updateStateEv req.Id "FAILED" none disk, .respond 500 none]
    | .ok _ =>
      match env.createResult with
      | .error _ => [.updateStateEv req.Id "FAILED" none disk, .respond 500 none]
      | .ok cid =>
        [.dockerCreate cid, .respond 202 (some cid)] ++
        (if req.hasInstallScripts then
          .runInstallScripts ::
          (match env.scriptsResult with
           | .error _ => [.updateStateEv req.Id "FAILED" (some cid) disk]
           | .ok _ => startPhase req.Id cid disk env)
        else startPhase req.Id cid disk env)

/-- HostPort of the first binding of the first PortBindings entry, the
`Object.values(PortBindings)[0][0].HostPort` read of the older handler;
`none` models the TypeError thrown when it is absent. -/
def firstHostPort (req : CreateRequest) : Option String :=
  req.PortBindings.head?.bind (fun kb => kb.2.head?.map (fun b => b.HostPort))

/-- Start-phase events of the older handler copy (the unnamed main file):
its catch always commits FAILED with a null container id. -/
def startPhaseMain (id : String) (cid : String) (disk : Option Int) (env : DockerEnv) :
    List DeployEvent :=
  match env.startResult with
  | .error _ => [.updateStateEv id "FAILED" none disk]
  | .ok _ => [.startContainer cid, .updateStateEv id "READY" (some cid) disk]

/-- Model of the createContainer copy embedded in the unnamed main file:
no port validation; the primary-port read throws on missing bindings
(outer catch: FAILED and 500); the pull is wrapped in its own try/catch
whose early return responds 500 WITHOUT committing FAILED, so the record
stays INSTALLING; post-202 failures commit FAILED with a null container
id. -/
def createContainerMain (req : CreateRequest) (env : DockerEnv) : List DeployEvent :=
  let disk : Option Int := some (req.Disk.getD 0)
  .mkdirVolume req.Id ::
  match firstHostPort req with
  | none => [.updateStateEv req.Id "FAILED" none disk, .respond 500 none]
  | some _ =>
    [.updateStateEv req.Id "INSTALLING" none disk, .pullImage req.Image] ++
    match env.pullResult with
    | .error _ => [.respond 500 none]
    | .ok _ =>
      match env.createResult with
      | .error _ => [.updateStateEv req.Id "FAILED" none disk, .respond 500 none]
      | .ok cid =>
        [.dockerCreate cid, .respond 202 (some cid)] ++
        (if req.hasInstallScripts then
          .runInstallScripts ::
          (match env.scriptsResult with
           | .error _ => [.updateStateEv req.Id "FAILED" none disk]
           | .ok _ => startPhaseMain req.Id cid disk env)
        else startPhaseMain req.Id cid disk env)

/-- Effect of one event on the durable state document. -/
def applyEvent (d : StatesDoc) : DeployEvent → StatesDoc
  | .updateStateEv id st cid dl => setRecord d id ⟨st, cid, dl⟩
  | _ => d

/-- State document after a list of events. -/
def docAfter (d₀ : StatesDoc) (evs : List DeployEvent) : StatesDoc :=
  evs.foldl applyEvent d₀

/-- Whether an event is an HTTP response. -/
def isRespond : DeployEvent → Bool
  | .respond _ _ => true
  | _ => false

/-- The events that have taken effect at the moment the response is sent. -/
def eventsBeforeResponse (evs : List DeployEvent) : List DeployEvent :=
  evs.takeWhile (fun e => !isRespond e)

/-- State document at the moment the response is sent. -/
def docAtResponse (d₀ : StatesDoc) (evs : List DeployEvent) : StatesDoc :=
  docAfter d₀ (eventsBeforeResponse evs)

/-- Claim C1, amended: whenever the create handler answers 202, the 202
body carries the runtime-assigned container id, but the durable state
record for the instance at that moment is the INSTALLING record with a
NULL container id (the id reaches the record only at the later READY or
FAILED commit). -/
theorem c1_record_at_202 (req : CreateRequest) (env : DockerEnv) (d₀ : StatesDoc)
    (cid : Option String) (hmem : DeployEvent.respond 202 cid ∈ createContainer req env) :
    (∃ c, cid = some c ∧ env.createResult = .ok c) ∧
    findRecord (docAtResponse d₀ (createContainer req env)) req.Id =
      some ⟨"INSTALLING", none, some (req.Disk.getD 0)⟩ := by
  by_cases hp : hasInvalidPort req.PortBindings
  · simp [createContainer, hp] at hmem
  · rcases henv : env.pullResult with msg | u
    · simp [createContainer, hp, henv] at hmem
    · rcases hcr : env.createResult with msg | cid₂
      · simp [createContainer, hp, henv, hcr] at hmem
      · constructor
        · rcases hs : req.hasInstallScripts with _ | _ <;>
            rcases hsc : env.scriptsResult with m₂ | u₂ <;>
            rcases hst : env.startResult with m₃ | u₃ <;>
            simp [createContainer, hp, henv, hcr, hs, hsc, hst, startPhase] at hmem <;>
            exact ⟨cid₂, hmem, rfl⟩
        · simp [createContainer, hp, henv, hcr, docAtResponse, eventsBeforeResponse,
            List.takeWhile_cons, isRespond, docAfter, applyEvent, findRecord_setRecord_self]

/-- Claim C1, counterexample to the claim as stated: a fully successful
create run answers 202, yet at that moment the state record of the
instance has containerId null (the claim asserts it is non-null). -/
theorem c1_counterexample :
    DeployEvent.respond 202 (some "cid123") ∈
      createContainer ⟨"alpine:latest", "inst-A", [("80/tcp", [⟨"18080"⟩])], some 1, false⟩
        ⟨.ok (), .ok "cid123", .ok (), .ok ()⟩ ∧
    findRecord (docAtResponse []
      (createContainer ⟨"alpine:latest", "inst-A", [("80/tcp", [⟨"18080"⟩])], some 1, false⟩
        ⟨.ok (), .ok "cid123", .ok (), .ok ()⟩)) "inst-A" =
      some ⟨"INSTALLING", none, some 1⟩ := by
  constructor
  · decide
  · rfl

/-- Witness for c1_record_at_202 at a concrete successful deployment. -/
theorem c1_witness :
    findRecord (docAtResponse []
      (createContainer ⟨"img:1", "inst-B", [], none, true⟩
        ⟨.ok (), .ok "cbb", .ok (), .ok ()⟩)) "inst-B" =
      some ⟨"INSTALLING", none, some 0⟩ :=
  (c1_record_at_202 ⟨"img:1", "inst-B", [], none, true⟩
    ⟨.ok (), .ok "cbb", .ok (), .ok ()⟩ [] (some "cbb") (by decide)).2

/-- Claim C2, amended: when the image pull fails before the early
acknowledgement, the fixed handler (routes/Deployment.js) responds 500,
commits the state record as FAILED (with a null container id) and creates
no container; the older copy of createContainer embedded in the unnamed
main file responds 500 and creates no container, but its early return
skips the FAILED commit, leaving the record at INSTALLING. -/
theorem c2_pull_failure (req : CreateRequest) (env : DockerEnv) (d₀ : StatesDoc) (msg : String)
    (hpull : env.pullResult = .error msg) :
    (hasInvalidPort req.PortBindings = false →
      createContainer req env =
        [.mkdirVolume req.Id,
         .updateStateEv req.Id "INSTALLING" none (some (req.Disk.getD 0)),
         .pullImage req.Image,
         .updateStateEv req.Id "FAILED" none (some (req.Disk.getD 0)),
         .respond 500 none] ∧
      findRecord (docAfter d₀ (createContainer req env)) req.Id =
        some ⟨"FAILED", none, some (req.Disk.getD 0)⟩ ∧
      (∀ cid, DeployEvent.dockerCreate cid ∉ createContainer req env)) ∧
    (∀ hp, firstHostPort req = some hp →
      createContainerMain req env =
        [.mkdirVolume req.Id,
         .updateStateEv req.Id "INSTALLING" none (some (req.Disk.getD 0)),
         .pullImage req.Image,
         .respond 500 none] ∧
      findRecord (docAfter d₀ (createContainerMain req env)) req.Id =
        some ⟨"INSTALLING", none, some (req.Disk.getD 0)⟩ ∧
      (∀ cid, DeployEvent.dockerCreate cid ∉ createContainerMain req env)) := by
  constructor
  · intro hval
    have htr : createContainer req env =
        [.mkdirVolume req.Id,
         .updateStateEv req.Id "INSTALLING" none (some (req.Disk.getD 0)),
         .pullImage req.Image,
         .updateStateEv req.Id "FAILED" none (some (req.Disk.getD 0)),
         .respond 500 none] := by
      simp [createContainer, hval, hpull]
    refine ⟨htr, ?_, ?_⟩
    · rw [htr]
      simp [docAfter, applyEvent, findRecord_setRecord_self]
    · intro cid
      rw [htr]
      simp
  · intro hp hfirst
    have htr : createContainerMain req env =
        [.mkdirVolume req.Id,
         .updateStateEv req.Id "INSTALLING" none (some (req.Disk.getD 0)),
         .pullImage req.Image,
         .respond 500 none] := by
      simp [createContainerMain, hfirst, hpull]
    refine ⟨htr, ?_, ?_⟩
    · rw [htr]
      simp [docAfter, applyEvent, findRecord_setRecord_self]
    · intro cid
      rw [htr]
      simp

/-- Claim C2, counterexample to the claim as stated, on the createContainer
copy in the unnamed main file: a failing pull yields a 500 response and no
container, but the state record is left at INSTALLING, not committed as
FAILED. -/
theorem c2_counterexample :
    createContainerMain ⟨"no/such:image", "inst-A", [("80/tcp", [⟨"18080"⟩])], some 1, false⟩
        ⟨.error "pull failed", .ok "x", .ok (), .ok ()⟩ =
      [.mkdirVolume "inst-A", .updateStateEv "inst-A" "INSTALLING" none (some 1),
       .pullImage "no/such:image", .respond 500 none] ∧
    findRecord (docAfter []
      (createContainerMain ⟨"no/such:image", "inst-A", [("80/tcp", [⟨"18080"⟩])], some 1, false⟩
        ⟨.error "pull failed", .ok "x", .ok (), .ok ()⟩)) "inst-A" =
      some ⟨"INSTALLING", none, some 1⟩ :=
  ⟨rfl, rfl⟩

/-- Witness for c2_pull_failure at a concrete failing pull: the fixed
handler commits FAILED. -/
theorem c2_witness :
    findRecord (docAfter []
      (createContainer ⟨"no/such:image", "inst-A", [("80/tcp", [⟨"18080"⟩])], some 1, false⟩
        ⟨.error "pull failed", .ok "x", .ok (), .ok ()⟩)) "inst-A" =
      some ⟨"FAILED", none, some 1⟩ :=
  ((c2_pull_failure ⟨"no/such:image", "inst-A", [("80/tcp", [⟨"18080"⟩])], some 1, false⟩
    ⟨.error "pull failed", .ok "x", .ok (), .ok ()⟩ [] "pull failed" rfl).1 (by decide)).2.1

/-- Claim C5: every HostPort must parse (parseInt, radix 10) to a value in
1..=65535, otherwise the handler answers 400 with no side effect at all —
the trace is the bare 400 response, so no volume is created and no state
record is written; 0 and 65536 (and 70000) are rejected while 1 and 65535
are accepted. -/
theorem c5_port_validation :
    (∀ req env, hasInvalidPort req.PortBindings = true →
      createContainer req env = [.respond 400 none]) ∧
    portOk "0" = false ∧ portOk "65536" = false ∧ portOk "70000" = false ∧
    portOk "1" = true ∧ portOk "65535" = true := by
  refine ⟨?_, rfl, rfl, rfl, rfl, rfl⟩
  intro req env h
  simp [createContainer, h]

/-- Witness for c5_port_validation: a request with HostPort 70000 produces
only the 400 response. -/
theorem c5_witness :
    createContainer ⟨"img", "inst-C", [("80/tcp", [⟨"70000"⟩])], none, false⟩
      ⟨.ok (), .ok "c", .ok (), .ok ()⟩ = [.respond 400 none] :=
  c5_port_validation.1 ⟨"img", "inst-C", [("80/tcp", [⟨"70000"⟩])], none, false⟩
    ⟨.ok (), .ok "c", .ok (), .ok ()⟩ (by decide)

/-- Externally visible outcome of one download attempt: the https.get
request errors, or a response arrives with a status code (and, when the
body is piped to disk, an optional pipeline failure message). -/
inductive DlAttempt where
  | getError : String → DlAttempt
  | resp : Nat → Option String → DlAttempt
  deriving Repr, DecidableEq

/-- Observable events of downloadFile in attempt order. -/
inductive DlEvent where
  | get : Nat → DlEvent
  | wait60 : Nat → DlEvent
  | unlink : Nat → DlEvent
  | downloaded : DlEvent
  deriving Repr, DecidableEq

/-- Model of the retry loop of downloadFile (routes/Deployment.js):
`while (attempt < maxAttempts)` with maxAttempts 3; attempt is incremented
on entry; a 522 response logs, waits 60 seconds and continues (no unlink,
no throw — even on the third attempt); any other non-200 status throws;
the catch unlinks the partial file and rethrows the error when
attempt = maxAttempts.  Returns the event list and the thrown error (none
when the function returns normally).  The fuel makes the loop structural;
four units cover the at-most-three iterations. -/
def dlLoop (outcomes : Nat → DlAttempt) (url : String) : Nat → Nat → List DlEvent × Option String
  | 0, _ => ([], none)
  | fuel + 1, attempt =>
    if attempt < 3 then
      let a := attempt + 1
      match outcomes a with
      | .getError msg =>
        if a = 3 then ([.get a, .unlink a], some msg)
        else
          let r := dlLoop outcomes url fuel a
          (.get a :: .unlink a :: r.1, r.2)
      | .resp code pipeErr =>
        if code = 522 then
          let r := dlLoop outcomes url fuel a
          (.get a :: .wait60 a :: r.1, r.2)
        else if code ≠ 200 then
          if a = 3 then ([.get a, .unlink a], some ("HTTP " ++ toString code ++ " for " ++ url))
          else
            let r := dlLoop outcomes url fuel a
            (.get a :: .unlink a :: r.1, r.2)
        else
          match pipeErr with
          | some msg =>
            if a = 3 then ([.get a, .unlink a], some msg)
            else
              let r := dlLoop outcomes url fuel a
              (.get a :: .unlink a :: r.1, r.2)
          | none => ([.get a, .downloaded], none)
    else ([], none)

/-- Model of downloadFile: run the retry loop from attempt 0. -/
def downloadFile (url : String) (outcomes : Nat → DlAttempt) : List DlEvent × Option String :=
  dlLoop outcomes url 4 0

/-- Whether an event is the issuing of an HTTP request (one per attempt). -/
def isGet : DlEvent → Bool
  | .get _ => true
  | _ => false

/-- Number of attempts made in an event trace. -/
def countGet (evs : List DlEvent) : Nat := (evs.filter isGet).length

/-- An attempt outcome that does not complete the download. -/
def notSuccess : DlAttempt → Bool
  | .resp 200 none => false
  | _ => true

/-- The error such an outcome throws inside the loop body, if any (a 522
continues instead of throwing). -/
def throwsWith (url : String) : DlAttempt → Option String
  | .getError msg => some msg
  | .resp code pipeErr =>
    if code = 522 then none
    else if code ≠ 200 then some ("HTTP " ++ toString code ++ " for " ++ url)
    else pipeErr

lemma countGet_cons_get (a : Nat) (evs : List DlEvent) :
    countGet (.get a :: evs) = countGet evs + 1 := by
  simp [countGet, isGet, List.filter]

lemma countGet_cons_other (e : DlEvent) (evs : List DlEvent) (h : isGet e = false) :
    countGet (e :: evs) = countGet evs := by
  simp [countGet, List.filter, h]

lemma countGet_nil : countGet [] = 0 := rfl

lemma dlLoop_done (o : Nat → DlAttempt) (url : String) (fuel attempt : Nat)
    (h : ¬ attempt < 3) : dlLoop o url fuel attempt = ([], none) := by
  cases fuel with
  | zero => rfl
  | succ fuel => simp [dlLoop, h]

lemma dlLoop_countGet (o : Nat → DlAttempt) (url : String) :
    ∀ fuel attempt, countGet (dlLoop o url fuel attempt).1 ≤ 3 - attempt := by
  intro fuel
  induction fuel with
  | zero => intro attempt; simp [dlLoop, countGet_nil]
  | succ fuel ih =>
    intro attempt
    by_cases h : attempt < 3
    · have hrec := ih (attempt + 1)
      have hone : 1 ≤ 3 - attempt := by omega
      rcases ho : o (attempt + 1) with msg | ⟨code, pipeErr⟩
      · by_cases h3 : attempt + 1 = 3
        · rw [h3] at ho
          simp [dlLoop, h, ho, h3, countGet_cons_get, countGet_cons_other, countGet_nil, isGet]
          omega
        · simp [dlLoop, h, ho, h3, countGet_cons_get, countGet_cons_other, countGet_nil, isGet]
          omega
      · by_cases h522 : code = 522
        · simp [dlLoop, h, ho, h522, countGet_cons_get, countGet_cons_other, countGet_nil, isGet]
          omega
        · by_cases h200 : code = 200
          · rcases pipeErr with _ | msg
            · simp [dlLoop, h, ho, h522, h200, countGet_cons_get, countGet_cons_other,
                countGet_nil, isGet]
              omega
            · by_cases h3 : attempt + 1 = 3
              · rw [h3] at ho
                simp [dlLoop, h, ho, h522, h200, h3, countGet_cons_get, countGet_cons_other,
                  countGet_nil, isGet]
                omega
              · simp [dlLoop, h, ho, h522, h200, h3, countGet_cons_get, countGet_cons_other,
                  countGet_nil, isGet]
                omega
          · by_cases h3 : attempt + 1 = 3
            · rw [h3] at ho
              simp [dlLoop, h, ho, h522, h200, h3, countGet_cons_get, countGet_cons_other,
                countGet_nil, isGet]
              omega
            · simp [dlLoop, h, ho, h522, h200, h3, countGet_cons_get, countGet_cons_other,
                countGet_nil, isGet]
              omega
    · simp [dlLoop, h, countGet_nil]

lemma dlLoop_fail_step (o : Nat → DlAttempt) (url : String) (fuel attempt : Nat)
    (h : attempt < 3) (ha : attempt + 1 ≠ 3) (hns : notSuccess (o (attempt + 1)) = true) :
    (dlLoop o url (fuel + 1) attempt).2 = (dlLoop o url fuel (attempt + 1)).2 := by
  rcases ho : o (attempt + 1) with msg | ⟨code, pipeErr⟩
  · simp [dlLoop, h, ho, ha]
  · by_cases h522 : code = 522
    · simp [dlLoop, h, ho, h522]
    · by_cases h200 : code = 200
      · rcases pipeErr with _ | msg
        · rw [ho] at hns
          subst h200
          simp [notSuccess] at hns
        · simp [dlLoop, h, ho, h522, h200, ha]
      · simp [dlLoop, h, ho, h522, h200, ha]

lemma dlLoop_throw_step (o : Nat → DlAttempt) (url : String) (fuel : Nat) (msg : String)
    (h3 : throwsWith url (o 3) = some msg) :
    (dlLoop o url (fuel + 1) 2).2 = some msg := by
  rcases ho : o 3 with m | ⟨code, pipeErr⟩
  · rw [ho] at h3
    simp [throwsWith] at h3
    simp [dlLoop, ho, h3]
  · rw [ho] at h3
    by_cases h522 : code = 522
    · simp [throwsWith, h522] at h3
    · by_cases h200 : code = 200
      · subst h200
        simp [throwsWith] at h3
        rcases pipeErr with _ | m
        · cases h3
        · simp at h3
          simp [dlLoop, ho, h3]
      · simp [throwsWith, h522, h200] at h3
        simp [dlLoop, ho, h522, h200, h3]

/-- Claim C4, amended: downloadFile makes at most 3 attempts; an HTTP 522
response causes a 60-second wait before the loop continues on EVERY
attempt, including the third; any other non-200 status fails the attempt
immediately and the partially-written file is deleted; when the final
attempt fails by throwing, that error is surfaced to the caller — but
three consecutive 522 responses exhaust the attempts with a wait after
each one and the function returns with no error surfaced and no download
performed. -/
theorem c4_download_retry :
    (∀ url o, countGet (downloadFile url o).1 ≤ 3) ∧
    (∀ url o msg, notSuccess (o 1) = true → notSuccess (o 2) = true →
      throwsWith url (o 3) = some msg → (downloadFile url o).2 = some msg) ∧
    (∀ url o code p, o 1 = .resp code p → code ≠ 200 → code ≠ 522 →
      (downloadFile url o).1.take 2 = [.get 1, .unlink 1]) ∧
    (∀ url, downloadFile url (fun _ => .resp 522 none) =
      ([.get 1, .wait60 1, .get 2, .wait60 2, .get 3, .wait60 3], none)) := by
  refine ⟨?_, ?_, ?_, ?_⟩
  · intro url o
    exact dlLoop_countGet o url 4 0
  · intro url o msg h1 h2 h3
    have e1 : (dlLoop o url 4 0).2 = (dlLoop o url 3 1).2 :=
      dlLoop_fail_step o url 3 0 (by omega) (by omega) h1
    have e2 : (dlLoop o url 3 1).2 = (dlLoop o url 2 2).2 :=
      dlLoop_fail_step o url 2 1 (by omega) (by omega) h2
    have e3 : (dlLoop o url 2 2).2 = some msg :=
      dlLoop_throw_step o url 1 msg h3
    exact (e1.trans e2).trans e3
  · intro url o code p ho h200 h522
    simp [downloadFile, dlLoop, ho, h200, h522]
  · intro url
    rfl

/-- Claim C4, counterexample to the claim as stated: three consecutive 522
responses.  The 60-second wait happens on the third attempt as well (the
claim says first two only), and although every attempt failed, no error is
surfaced — the function returns normally without having downloaded
anything. -/
theorem c4_counterexample :
    downloadFile "https://cdn/x" (fun _ => .resp 522 none) =
      ([.get 1, .wait60 1, .get 2, .wait60 2, .get 3, .wait60 3], none) ∧
    DlEvent.wait60 3 ∈ (downloadFile "https://cdn/x" (fun _ => DlAttempt.resp 522 none)).1 ∧
    (downloadFile "https://cdn/x" (fun _ => DlAttempt.resp 522 none)).2 = none :=
  ⟨rfl, by decide, rfl⟩

/-- Witness for c4_download_retry: a download whose requests all error
surfaces the third attempt's error. -/
theorem c4_witness :
    (downloadFile "https://a/b" (fun _ => DlAttempt.getError "boom")).2 = some "boom" :=
  c4_download_retry.2.1 "https://a/b" (fun _ => DlAttempt.getError "boom") "boom" rfl rfl rfl

/-- Model of the disk-limit read at the start of setupStatsStreaming (the
unnamed main file): if storage/states.json exists and parses, and the
record for the volume id and its diskLimit field are both truthy, the disk
limit is that field's number; in every other case (missing file,
unparseable JSON, missing record, missing/null/zero field) it stays 0.
The state documents written by this program store diskLimit as a number or
null. -/
def readDiskLimit (content : Option String) (volumeId : String) : Int :=
  match content with
  | none => 0
  | some s =>
    match jsonParse s with
    | none => 0
    | some doc =>
      match doc.getField volumeId with
      | none => 0
      | some rec =>
        if jsTruthy rec then
          match rec.getField "diskLimit" with
          | some (.num n) => if n ≠ 0 then n else 0
          | _ => 0
        else 0

/-- The per-tick quota check of fetchStats:
`storageExceeded = diskLimit > 0 && volumeSizeMiB >= diskLimit`. -/
def storageExceeded (diskLimit volumeSizeMiB : Int) : Bool :=
  decide (diskLimit > 0) && decide (volumeSizeMiB ≥ diskLimit)

/-- External inputs of one stats tick: whether container.stats succeeded,
the parseFloat of the measured volume size (none models NaN, defaulted to
0 by `|| 0`), and whether the container is currently running. -/
structure TickInput where
  statsOk : Bool
  volumeSize : Option Int
  running : Bool

/-- Observable outcome of one tick: the storageExceeded flag attached to
the sent sample (none when the tick sent the error object instead) and
whether a stop was issued on this tick. -/
structure TickOutput where
  sentExceeded : Option Bool
  stopIssued : Bool
  deriving Repr, DecidableEq

/-- One iteration of fetchStats, threading the hasAutoStopped latch: on a
stats failure only the error object is sent; otherwise the tick computes
storageExceeded and stops the container iff it is exceeded, not already
auto-stopped in this session, and running. -/
def statsTick (diskLimit : Int) (hasAutoStopped : Bool) (t : TickInput) : TickOutput × Bool :=
  if t.statsOk then
    let volumeSizeMiB := t.volumeSize.getD 0
    let ex := storageExceeded diskLimit volumeSizeMiB
    let doStop := ex && !hasAutoStopped && t.running
    (⟨some ex, doStop⟩, hasAutoStopped || doStop)
  else (⟨none, false⟩, hasAutoStopped)

/-- The tick sequence of one session, starting with the latch cleared. -/
def statsSessionLoop (diskLimit : Int) : Bool → List TickInput → List TickOutput
  | _, [] => []
  | has, t :: ts =>
    let r := statsTick diskLimit has t
    r.1 :: statsSessionLoop diskLimit r.2 ts

/-- Model of a whole stats session: the disk limit is read once from the
state document at session start and used for every tick. -/
def statsSession (content : Option String) (volumeId : String)
    (ticks : List TickInput) : List TickOutput :=
  statsSessionLoop (readDiskLimit content volumeId) false ticks

/-- A tick outcome that neither reports exceeded storage nor stops the
container. -/
def tickBenign (out : TickOutput) : Bool := !(out.sentExceeded == some true) && !out.stopIssued

lemma statsSessionLoop_zero (ticks : List TickInput) : ∀ has,
    (statsSessionLoop 0 has ticks).all tickBenign = true := by
  induction ticks with
  | nil => intro has; rfl
  | cons t ts ih =>
    intro has
    rcases hst : t.statsOk with _ | _ <;>
      simp [statsSessionLoop, statsTick, hst, storageExceeded, tickBenign, List.all_cons, ih]

/-- Claim C7: the disk limit is read once at session start from the state
record for the volume id, defaulting to 0 when the document is missing or
unreadable; each successful tick reports
`storageExceeded = diskLimit > 0 ∧ volumeSize ≥ diskLimit`; and a disk
limit of 0 never marks storage exceeded and never triggers the auto-stop,
whatever the volume size and however many ticks run. -/
theorem c7_disk_limit_zero :
    (∀ v, readDiskLimit none v = 0) ∧
    (∀ s v, jsonParse s = none → readDiskLimit (some s) v = 0) ∧
    (∀ dl has t, t.statsOk = true →
      ((statsTick dl has t).1.sentExceeded =
        some (decide (dl > 0) && decide (t.volumeSize.getD 0 ≥ dl)))) ∧
    (∀ content v ticks, readDiskLimit content v = 0 →
      (statsSession content v ticks).all tickBenign = true) := by
  refine ⟨fun v => rfl, ?_, ?_, ?_⟩
  · intro s v h
    simp [readDiskLimit, h]
  · intro dl has t h
    simp [statsTick, h, storageExceeded]
  · intro content v ticks h
    unfold statsSession
    rw [h]
    exact statsSessionLoop_zero ticks false

/-- Witness for c7_disk_limit_zero: a session over a state record whose
disk limit is 0 and a 500 MiB volume reports no quota breach and issues no
stop. -/
theorem c7_witness :
    (statsSession (some (stringifyStates [("v1", ⟨"READY", some "c", some 0⟩)])) "v1"
      [⟨true, some 500, true⟩, ⟨true, some 900, true⟩]).all tickBenign = true :=
  c7_disk_limit_zero.2.2.2 (some (stringifyStates [("v1", ⟨"READY", some "c", some 0⟩)])) "v1"
    [⟨true, some 500, true⟩, ⟨true, some 900, true⟩] rfl

/-- One buffered log record: `{ timestamp, content }`. -/
structure LogMsg where
  timestamp : String
  content : String
  deriving Repr, DecidableEq

/-- Read `containerLogs[cid]`; `none` models undefined. -/
def findBuf (logs : List (String × List LogMsg)) (cid : String) : Option (List LogMsg) :=
  match logs with
  | [] => none
  | (k, v) :: rest => if k = cid then some v else findBuf rest cid

/-- Push one record onto `containerLogs[cid]` (present entries only; the
log-stream data handler only runs after the attach initialized the
entry). -/
def pushBuf (logs : List (String × List LogMsg)) (cid : String) (m : LogMsg) :
    List (String × List LogMsg) :=
  logs.map (fun e => (e.1, if e.1 = cid then e.2 ++ [m] else e.2))

/-- State relevant to one exec/log session: the server-wide containerLogs
map and whether this session's log stream is attached (not destroyed). -/
structure ExecSessionState where
  containerLogs : List (String × List LogMsg)
  streamAttached : Bool
  deriving Repr, DecidableEq

/-- Session events: streamDockerLogs attaching (initializing the buffer if
absent and subscribing the follow stream), a data chunk arriving on the
log stream, and the channel closing (which destroys the log stream). -/
inductive ExecEvent where
  | attach : ExecEvent
  | logData : String → String → ExecEvent
  | close : ExecEvent

/-- Model of the buffer lifecycle in streamDockerLogs / initializeContainerLogs
(the unnamed main file): attach lazily creates `containerLogs[cid] = []`
when absent; each data chunk is appended to the buffer while the stream is
attached; on close only `logStream.destroy()` runs — the buffer entry is
never deleted. -/
def execStep (cid : String) (s : ExecSessionState) : ExecEvent → ExecSessionState
  | .attach =>
    ⟨if findBuf s.containerLogs cid = none then s.containerLogs ++ [(cid, [])]
      else s.containerLogs, true⟩
  | .logData ts content =>
    if s.streamAttached then ⟨pushBuf s.containerLogs cid ⟨ts, content⟩, s.streamAttached⟩
    else s
  | .close => ⟨s.containerLogs, false⟩

/-- A session's whole event history applied in order. -/
def execRun (cid : String) (s₀ : ExecSessionState) (evs : List ExecEvent) : ExecSessionState :=
  evs.foldl (execStep cid) s₀

lemma findBuf_append_new (logs : List (String × List LogMsg)) (cid : String)
    (h : findBuf logs cid = none) : findBuf (logs ++ [(cid, [])]) cid = some [] := by
  induction logs with
  | nil => simp [findBuf]
  | cons e rest ih =>
    rcases e with ⟨k, v⟩
    by_cases hk : k = cid
    · simp [findBuf, hk] at h
    · simp [findBuf, hk] at h ⊢
      exact ih h

lemma findBuf_pushBuf (logs : List (String × List LogMsg)) (cid : String) (m : LogMsg)
    (buf : List LogMsg) (h : findBuf logs cid = some buf) :
    findBuf (pushBuf logs cid m) cid = some (buf ++ [m]) := by
  induction logs with
  | nil => simp [findBuf] at h
  | cons e rest ih =>
    rcases e with ⟨k, v⟩
    by_cases hk : k = cid
    · subst hk
      simp [findBuf] at h
      subst h
      simp [pushBuf, findBuf]
    · simp [findBuf, hk] at h
      simpa [pushBuf, findBuf, hk] using ih h

/-- Claim C8, amended: the in-memory log buffer for a container id is
created lazily (empty) when an exec session first attaches, reused intact
on re-attach, appended to as log-stream data arrives, and on channel close
the session's log stream is destroyed but the buffer is NOT released — the
containerLogs entry survives, unchanged, after the session closes. -/
theorem c8_log_buffer (cid : String) :
    (∀ s : ExecSessionState, findBuf s.containerLogs cid = none →
      findBuf (execStep cid s .attach).containerLogs cid = some []) ∧
    (∀ (s : ExecSessionState) (buf : List LogMsg), findBuf s.containerLogs cid = some buf →
      findBuf (execStep cid s .attach).containerLogs cid = some buf) ∧
    (∀ (s : ExecSessionState) (ts ct : String) (buf : List LogMsg), s.streamAttached = true →
      findBuf s.containerLogs cid = some buf →
      findBuf (execStep cid s (.logData ts ct)).containerLogs cid = some (buf ++ [⟨ts, ct⟩])) ∧
    (∀ s : ExecSessionState, (execStep cid s .close).streamAttached = false ∧
      (execStep cid s .close).containerLogs = s.containerLogs) := by
  refine ⟨?_, ?_, ?_, fun s => ⟨rfl, rfl⟩⟩
  · intro s h
    simp [execStep, h]
    exact findBuf_append_new s.containerLogs cid h
  · intro s buf h
    simp [execStep, h]
  · intro s ts ct buf hat h
    simp [execStep, hat]
    exact findBuf_pushBuf s.containerLogs cid ⟨ts, ct⟩ buf h

/-- Claim C8, counterexample to the claim as stated: after attach, one log
chunk and channel close, the stream is destroyed but the buffer for the
container id still exists with its contents — it was not released. -/
theorem c8_counterexample :
    (execRun "c1" ⟨[], false⟩ [.attach, .logData "t1" "hello", .close]).streamAttached = false ∧
    findBuf (execRun "c1" ⟨[], false⟩
      [.attach, .logData "t1" "hello", .close]).containerLogs "c1" =
      some [⟨"t1", "hello"⟩] :=
  ⟨rfl, rfl⟩

/-- Witness for c8_log_buffer: lazy creation on first attach from an empty
map. -/
theorem c8_witness :
    findBuf (execStep "c9" ⟨[], false⟩ .attach).containerLogs "c9" = some [] :=
  (c8_log_buffer "c9").1 ⟨[], false⟩ rfl

/-- Model of formatUptime in the GET /stats handler (the unnamed main
file), for whole-second uptimes: minutes, hours and days are extracted
with the floor divisions of the source, each NONZERO component is pushed
as `Nd`/`Nh`/`Nm` in that order, the parts are joined with single spaces,
and an empty part list yields "0m". -/
def formatUptime (uptime : Nat) : String :=
  let minutes := uptime / 60 % 60
  let hours := uptime / 3600 % 24
  let days := uptime / 86400
  let parts :=
    (if days > 0 then [toString days ++ "d"] else []) ++
    (if hours > 0 then [toString hours ++ "h"] else []) ++
    (if minutes > 0 then [toString minutes ++ "m"] else [])
  if parts = [] then "0m" else String.intercalate " " parts

/-- Formatter described by the amended claim: given the day/hour/minute
components of the uptime, join the nonzero ones (all zero components
omitted, wherever they occur) and default to "0m". -/
def uptimeDropZeros (days hours minutes : Nat) : String :=
  let parts :=
    (if days > 0 then [toString days ++ "d"] else []) ++
    (if hours > 0 then [toString hours ++ "h"] else []) ++
    (if minutes > 0 then [toString minutes ++ "m"] else [])
  if parts = [] then "0m" else String.intercalate " " parts

/-- Formatter described by the claim as stated: omit only the zero LEADING
components, keep interior zero components. -/
def uptimeDropLeadingZeros (days hours minutes : Nat) : String :=
  if days > 0 then
    toString days ++ "d " ++ toString hours ++ "h " ++ toString minutes ++ "m"
  else if hours > 0 then
    toString hours ++ "h " ++ toString minutes ++ "m"
  else if minutes > 0 then
    toString minutes ++ "m"
  else "0m"

/-- Claim C9, amended: for an uptime of 86400*d + 3600*h + 60*m + s
seconds (the unique calendar decomposition), the endpoint formats the
uptime by joining the NONZERO components as Nd Nh Nm — every zero
component is omitted, not only the leading ones — defaulting to "0m" when
all are zero. -/
theorem c9_format_uptime (u d h m s : Nat) (hh : h < 24) (hm : m < 60) (hs : s < 60)
    (hu : u = 86400 * d + 3600 * h + 60 * m + s) :
    formatUptime u = uptimeDropZeros d h m := by
  have h₁ : u / 60 % 60 = m := by omega
  have h₂ : u / 3600 % 24 = h := by omega
  have h₃ : u / 86400 = d := by omega
  simp only [formatUptime, uptimeDropZeros, h₁, h₂, h₃]

/-- Claim C9, counterexample to the claim as stated: one day and five
minutes.  The interior zero hours component is dropped — the code prints
"1d 5m" where the claimed format keeps interior zeros ("1d 0h 5m"). -/
theorem c9_counterexample :
    formatUptime 86700 = "1d 5m" ∧
    uptimeDropLeadingZeros 1 0 5 = "1d 0h 5m" ∧
    formatUptime 86700 ≠ uptimeDropLeadingZeros 1 0 5 := by
  refine ⟨rfl, rfl, ?_⟩
  decide

/-- Witness for c9_format_uptime at one day, one hour, one minute and one
second. -/
theorem c9_witness : formatUptime 90061 = uptimeDropZeros 1 1 1 :=
  c9_format_uptime 90061 1 1 1 1 (by decide) (by decide) (by decide) (by decide)

/-- Outcome of the version probe a call would perform: the version-less
GET /version succeeded and its body's ApiVersion field was the given value
(none models an absent field, read as undefined), or the request failed
(also covering a null body, whose property access throws inside the
try). -/
inductive ProbeResult where
  | ok : Option String → ProbeResult
  | fail : ProbeResult

/-- JavaScript truthiness of the cached apiVersion value (null/undefined
and the empty string are falsy). -/
def strTruthy : Option String → Bool
  | none => false
  | some s => s ≠ ""

/-- Model of _getApiVersion (utils/Docker.js): if this.apiVersion is
truthy return it without probing; otherwise probe — on success cache and
return the body's ApiVersion field as-is (even when absent), on failure
cache and return the hard-coded fallback "1.44".  Returns (returned
version, new cached value, whether a probe was issued). -/
def getApiVersion (cached : Option String) (probe : ProbeResult) :
    Option String × Option String × Bool :=
  if strTruthy cached then (cached, cached, false)
  else
    match probe with
    | .ok av => (av, av, true)
    | .fail => (some "1.44", some "1.44", true)

/-- A sequence of client operations, each carrying the probe outcome it
would observe if it probed; yields per call the version used and whether
that call probed. -/
def runApiCalls (cached : Option String) : List ProbeResult → List (Option String × Bool)
  | [] => []
  | p :: ps =>
    let r := getApiVersion cached p
    (r.1, r.2.2) :: runApiCalls r.2.1 ps

/-- Number of probes issued over a run. -/
def countProbes (outs : List (Option String × Bool)) : Nat :=
  (outs.filter (fun o => o.2)).length

/-- Claim C10, amended: once the cache holds a truthy version no later
call ever probes again and all calls use the cached value; in particular a
failed first probe pins the fallback "1.44" for the remainder of the run
even if the runtime recovers, and a successful first probe with a nonempty
ApiVersion pins that version.  (A successful probe whose body lacks an
ApiVersion field leaves the cache falsy, so the next call probes again —
the "at most once per process" part of the claim fails there.) -/
theorem c10_api_version_cache :
    (∀ (v : String) (ps : List ProbeResult), v ≠ "" →
      runApiCalls (some v) ps = ps.map (fun _ => (some v, false))) ∧
    (∀ ps : List ProbeResult,
      runApiCalls none (.fail :: ps) =
        (some "1.44", true) :: ps.map (fun _ => (some "1.44", false))) ∧
    (∀ (v : String) (ps : List ProbeResult), v ≠ "" →
      runApiCalls none (.ok (some v) :: ps) =
        (some v, true) :: ps.map (fun _ => (some v, false))) := by
  have hpinned : ∀ (v : String) (ps : List ProbeResult), v ≠ "" →
      runApiCalls (some v) ps = ps.map (fun _ => (some v, false)) := by
    intro v ps hv
    induction ps with
    | nil => rfl
    | cons p ps ih =>
      simp [runApiCalls, getApiVersion, strTruthy, hv, ih]
  refine ⟨hpinned, ?_, ?_⟩
  · intro ps
    simp [runApiCalls, getApiVersion, strTruthy,
      hpinned "1.44" ps (by decide)]
  · intro v ps hv
    simp [runApiCalls, getApiVersion, strTruthy, hv, hpinned v ps hv]

/-- Claim C10, counterexample to the claim as stated: a runtime whose
GET /version answers 2xx with a body lacking the ApiVersion field.  The
first call probes, caches undefined (falsy), and the second call probes
again — two probes in one process, refuting "resolves its API version at
most once per process". -/
theorem c10_counterexample :
    runApiCalls none [.ok none, .ok none] = [(none, true), (none, true)] ∧
    countProbes (runApiCalls none [.ok none, .ok none]) = 2 :=
  ⟨rfl, rfl⟩

/-- Witness for c10_api_version_cache: a failed first probe pins "1.44"
even though the runtime would answer the second call's probe. -/
theorem c10_witness :
    runApiCalls none [.fail, .ok (some "1.47")] =
      [(some "1.44", true), (some "1.44", false)] :=
  c10_api_version_cache.2.1 [.ok (some "1.47")]
